import Mathlib

/-!
# smart_ptr.h : runtime-checked single ownership

A shallow embedding of `src/smart_ptr.h`.

* A pointer is `Option Nat`: `none` is `NULL`, `some a` designates the
  allocation numbered `a`.  As in the C abstract machine an allocation is never
  the same object as an earlier, released one, so the heap is a list that only
  grows and a released block stays `Block.freed`.
* A slot (a caller variable of type `smart_ptr`) is an entry of `Mem.slots`;
  its index plays the role of its address `&slot`.
* `abort()` after a diagnostic is `Outcome.abort`, carrying the text of the
  diagnostic and the memory at that moment; behaviour the C standard leaves
  undefined (dereferencing `NULL` or a released block, copying out of bounds)
  is `Outcome.fault`.
* The arguments `file`, `func`, `line` only reach `fprintf` and are left out.
-/

namespace SmartPtr

/-- One `unsigned char`. -/
abbrev Byte := Fin 256

/-- The record `struct sp__smart_ptr { owner; data; size; }`. -/
structure sp__smart_ptr where
  /-- Field `struct sp__smart_ptr **owner`: the address of the owning slot. -/
  owner : Option Nat
  /-- Field `void *data`. -/
  data : Option Nat
  /-- Field `size_t size`. -/
  size : Nat
deriving DecidableEq

/-- One allocation of the C heap. -/
inductive Block where
  /-- The block has been released by `free` or `realloc`. -/
  | freed
  /-- Raw storage, as returned by `malloc` or `realloc`. -/
  | bytes (bs : List Byte)
  /-- Storage that holds a `struct sp__smart_ptr`. -/
  | handle (r : sp__smart_ptr)
deriving DecidableEq

/-- The memory the operations act on: the caller's slots and the heap. -/
structure Mem where
  /-- Caller variables of type `smart_ptr`; entry `S` is the value of `*S`. -/
  slots : List (Option Nat)
  /-- All allocations made so far, indexed by their number. -/
  heap : List Block
deriving DecidableEq

/-- What the C library leaves to the implementation or to the run. -/
structure Libc where
  /-- Whether a request of `n` bytes cannot be satisfied while `u` bytes are
  in use: `fails u n`. -/
  fails : Nat → Nat → Bool
  /-- Whether `malloc(0)` returns `NULL`. -/
  malloc0_null : Bool
  /-- Whether `realloc(p, 0)` releases `p` and returns `NULL`. -/
  realloc0_frees : Bool
  /-- The indeterminate value of a byte of fresh storage, by offset. -/
  junk : Nat → Byte

/-- The text of a diagnostic, without the `file:func():line:` position. -/
inductive Diag where
  /-- Message "uninitialize pointer, cannot W". -/
  | uninitialized (what : String)
  /-- Message "pointer P is not empty, cannot make unique". -/
  | notEmpty
  /-- Message "invalid ownership of P, cannot W". -/
  | invalidOwnership (what : String)
  /-- Message "pointer is already freed, cannot free". -/
  | alreadyFreed
deriving DecidableEq

/-- How a call ends. -/
inductive Outcome (α : Type) where
  /-- The call returns `ret`, leaving memory `m`. -/
  | ok (ret : α) (m : Mem)
  /-- The call prints `d` and calls `abort()`; `m` is the memory then. -/
  | abort (d : Diag) (m : Mem)
  /-- The call has undefined behaviour. -/
  | fault
deriving DecidableEq

/-- `sizeof(struct sp__smart_ptr)`: three pointer-sized fields. -/
def sizeof_sp : Nat := 24

/-- The bytes a block takes up. -/
def Block.footprint : Block → Nat
  | Block.freed => 0
  | Block.bytes bs => bs.length
  | Block.handle _ => sizeof_sp

/-- The bytes in use: the sum over the blocks that are live. -/
def in_use (heap : List Block) : Nat :=
  (heap.map Block.footprint).sum

/-- Fresh storage of `n` bytes whose offsets start at `off`. -/
def fresh (L : Libc) (off n : Nat) : List Byte :=
  (List.range n).map (fun i => L.junk (off + i))

/-- Library `malloc(n)`: `NULL`, or a new block of `n` indeterminate bytes. -/
def malloc (L : Libc) (m : Mem) (n : Nat) : Option Nat × Mem :=
  if n = 0 ∧ L.malloc0_null = true then (none, m)
  else if L.fails (in_use m.heap) n = true then (none, m)
  else (some m.heap.length, { m with heap := m.heap ++ [Block.bytes (fresh L 0 n)] })

/-- Library `free(p)`: nothing for `NULL`, undefined for a block that is not live. -/
def free (m : Mem) (p : Option Nat) : Option Mem :=
  match p with
  | none => some m
  | some a =>
    match m.heap[a]? with
    | none => none
    | some Block.freed => none
    | some _ => some { m with heap := m.heap.set a Block.freed }

/-- Library `realloc(p, n)`: `malloc(n)` for `NULL`; otherwise the old object is
released and a new one returned that keeps the first `min` bytes, or `NULL` is
returned and the old object stays.  The outer `none` is undefined behaviour. -/
def realloc (L : Libc) (m : Mem) (p : Option Nat) (n : Nat) : Option (Option Nat × Mem) :=
  match p with
  | none => some (malloc L m n)
  | some a =>
    match m.heap[a]? with
    | some (Block.bytes bs) =>
      if n = 0 ∧ L.realloc0_frees = true then
        some (none, { m with heap := m.heap.set a Block.freed })
      else if L.fails (in_use m.heap) n = true then some (none, m)
      else some (some m.heap.length,
        { m with heap := m.heap.set a Block.freed ++
            [Block.bytes (bs.take n ++ fresh L bs.length (n - bs.length))] })
    | _ => none

/-- Library `memcpy(dst, src, n)` into the heap block `dst` from the caller's
bytes `src`.  A copy of zero bytes touches nothing. -/
def memcpy_in (m : Mem) (dst : Option Nat) (src : List Byte) (n : Nat) : Option Mem :=
  if n = 0 then some m
  else
    match dst with
    | none => none
    | some a =>
      match m.heap[a]? with
      | some (Block.bytes bs) =>
        if n ≤ bs.length ∧ n ≤ src.length then
          some { m with heap := m.heap.set a (Block.bytes (src.take n ++ bs.drop n)) }
        else none
      | _ => none

/-- Library `memcpy(dst, src, n)` from the heap block `src` into the caller's
array, whose contents are `dst`; the result is the array afterwards. -/
def memcpy_out (m : Mem) (dst : List Byte) (src : Option Nat) (n : Nat) : Option (List Byte) :=
  if n = 0 then some dst
  else
    match src with
    | none => none
    | some a =>
      match m.heap[a]? with
      | some (Block.bytes bs) =>
        if n ≤ bs.length ∧ n ≤ dst.length then some (bs.take n ++ dst.drop n) else none
      | _ => none

/-- Reading `*ptr` for a pointer to a record: `none` when `ptr` does not
designate a live record. -/
def load (m : Mem) (ptr : Nat) : Option sp__smart_ptr :=
  match m.heap[ptr]? with
  | some (Block.handle r) => some r
  | _ => none

/-- Writing the record `r` to `*ptr`. -/
def store (m : Mem) (ptr : Nat) (r : sp__smart_ptr) : Mem :=
  { m with heap := m.heap.set ptr (Block.handle r) }

/-- The caller's assignment `slot = p`. -/
def assign (m : Mem) (slot : Nat) (p : Option Nat) : Mem :=
  { m with slots := m.slots.set slot p }

/-- The record `static struct sp__smart_ptr zero`, and what `memset(ptr, 0, ..)`
writes (the null pointer is all bits zero). -/
def zero : sp__smart_ptr := ⟨none, none, 0⟩

/-- Function `smart_ptr_init()`: `malloc` of one record, then `memset` to zero. -/
def smart_ptr_init (L : Libc) (m : Mem) : Outcome (Option Nat) :=
  match malloc L m sizeof_sp with
  | (none, _) => Outcome.fault
  | (some ptr, m1) => Outcome.ok (some ptr) (store m1 ptr zero)

/-- Function `sp__smart_ptr_make_unique(owner, size)`.  The test
`memcmp(ptr, &zero, sizeof ..) != 0` compares the three fields with zero: the
record has no padding. -/
def sp__smart_ptr_make_unique (L : Libc) (m : Mem) (owner size : Nat) : Outcome Unit :=
  match m.slots[owner]? with
  | none => Outcome.fault
  | some none => Outcome.abort (Diag.uninitialized "make unique") m
  | some (some ptr) =>
    match load m ptr with
    | none => Outcome.fault
    | some r =>
      if r ≠ zero then Outcome.abort Diag.notEmpty m
      else
        match malloc L m size with
        | (data, m1) => Outcome.ok () (store m1 ptr ⟨some owner, data, size⟩)

/-- Function `sp__smart_ptr_set(owner, data)`. -/
def sp__smart_ptr_set (m : Mem) (owner : Nat) (data : List Byte) : Outcome Unit :=
  match m.slots[owner]? with
  | none => Outcome.fault
  | some none => Outcome.abort (Diag.uninitialized "set value") m
  | some (some ptr) =>
    match load m ptr with
    | none => Outcome.fault
    | some r =>
      if r.owner ≠ some owner then Outcome.abort (Diag.invalidOwnership "set value") m
      else
        match memcpy_in m r.data data r.size with
        | none => Outcome.fault
        | some m1 => Outcome.ok () m1

/-- Function `sp__smart_ptr_get(owner, data)`; `data` is the caller's array
before the call and the returned list is the array after it. -/
def sp__smart_ptr_get (m : Mem) (owner : Nat) (data : List Byte) : Outcome (List Byte) :=
  match m.slots[owner]? with
  | none => Outcome.fault
  | some none => Outcome.abort (Diag.uninitialized "retrieve value") m
  | some (some ptr) =>
    match load m ptr with
    | none => Outcome.fault
    | some r =>
      if r.owner ≠ some owner then Outcome.abort (Diag.invalidOwnership "retrieve value") m
      else
        match memcpy_out m data r.data r.size with
        | none => Outcome.fault
        | some out => Outcome.ok out m

/-- Function `sp__smart_ptr_resize(owner, size)`: the size is stored first,
then `data` is replaced by what `realloc` returns. -/
def sp__smart_ptr_resize (L : Libc) (m : Mem) (owner size : Nat) : Outcome Unit :=
  match m.slots[owner]? with
  | none => Outcome.fault
  | some none => Outcome.abort (Diag.uninitialized "retrieve value") m
  | some (some ptr) =>
    match load m ptr with
    | none => Outcome.fault
    | some r =>
      if r.owner ≠ some owner then Outcome.abort (Diag.invalidOwnership "retrieve value") m
      else
        match realloc L (store m ptr { r with size := size }) r.data size with
        | none => Outcome.fault
        | some (data, m1) =>
          match load m1 ptr with
          | none => Outcome.fault
          | some r1 => Outcome.ok () (store m1 ptr { r1 with data := data })

/-- Function `sp__smart_ptr_free(owner)`. -/
def sp__smart_ptr_free (m : Mem) (owner : Nat) : Outcome Unit :=
  match m.slots[owner]? with
  | none => Outcome.fault
  | some none => Outcome.abort Diag.alreadyFreed m
  | some (some ptr) =>
    match load m ptr with
    | none => Outcome.fault
    | some r =>
      if r.owner ≠ some owner then Outcome.abort (Diag.invalidOwnership "free") m
      else
        match free m r.data with
        | none => Outcome.fault
        | some m1 =>
          match free m1 (some ptr) with
          | none => Outcome.fault
          | some m2 => Outcome.ok () (assign m2 owner none)

/-- Function `sp__smart_ptr_throw(owner)`; the result is `*owner`. -/
def sp__smart_ptr_throw (m : Mem) (owner : Nat) : Outcome (Option Nat) :=
  match m.slots[owner]? with
  | none => Outcome.fault
  | some none => Outcome.abort (Diag.uninitialized "throw") m
  | some (some ptr) =>
    match load m ptr with
    | none => Outcome.fault
    | some r =>
      if r.owner ≠ some owner then Outcome.abort (Diag.invalidOwnership "throw") m
      else
        match (store m ptr { r with owner := none }).slots[owner]? with
        | none => Outcome.fault
        | some p => Outcome.ok p (store m ptr { r with owner := none })

/-- Function `sp__smart_ptr_catch(owner)`. -/
def sp__smart_ptr_catch (m : Mem) (owner : Nat) : Outcome Unit :=
  match m.slots[owner]? with
  | none => Outcome.fault
  | some none => Outcome.abort (Diag.uninitialized "catch") m
  | some (some ptr) =>
    match load m ptr with
    | none => Outcome.fault
    | some r =>
      if r.owner ≠ none then Outcome.abort (Diag.invalidOwnership "catch") m
      else Outcome.ok () (store m ptr { r with owner := some owner })

/-- Slot `S` holds the handle `h`, whose record names `S` as owner and the
live block `d` as buffer; `c` is the buffer, and `size` is its length. -/
def Bound (m : Mem) (S h d : Nat) (c : List Byte) : Prop :=
  m.slots[S]? = some (some h) ∧
  m.heap[h]? = some (Block.handle ⟨some S, some d, c.length⟩) ∧
  m.heap[d]? = some (Block.bytes c)

instance (m : Mem) (S h d : Nat) (c : List Byte) : Decidable (Bound m S h d c) := by
  unfold Bound; infer_instance

/-- A C library in the manner of glibc on a machine with `limit` bytes of
heap: `malloc(0)` returns a block, `realloc(p, 0)` releases `p` and returns
`NULL`, a request fails when it does not fit, fresh bytes read as zero. -/
def limited (limit : Nat) : Libc :=
  ⟨fun u n => decide (limit < u + n), false, true, fun _ => 0⟩

/-- One empty slot and an empty heap. -/
def mem0 : Mem := ⟨[none], []⟩

/-- Two slots; slot 0 holds a handle bound to it with the four bytes `[1,2,3,4]`. -/
def mem4 : Mem :=
  ⟨[some 0, none], [Block.handle ⟨some 0, some 1, 4⟩, Block.bytes [1, 2, 3, 4]]⟩

/-- As `mem4`, but slot 1 holds a copy of the reference stored in slot 0. -/
def mem4_alias : Mem :=
  ⟨[some 0, some 0], [Block.handle ⟨some 0, some 1, 4⟩, Block.bytes [1, 2, 3, 4]]⟩

/-- As `mem4`, after move-out through slot 0: the handle is in transit. -/
def mem4_thrown : Mem :=
  ⟨[some 0, none], [Block.handle ⟨none, some 1, 4⟩, Block.bytes [1, 2, 3, 4]]⟩

/-- As `mem4_thrown`, after the returned reference has been stored in slot 1:
both slots hold the reference of the handle in transit. -/
def mem4_copied : Mem :=
  ⟨[some 0, some 0], [Block.handle ⟨none, some 1, 4⟩, Block.bytes [1, 2, 3, 4]]⟩

/-- As `mem4`, after release through slot 0. -/
def mem4_freed : Mem := ⟨[none, none], [Block.freed, Block.freed]⟩

/-- One step of client code: a call of the interface through a slot.  A
reference reaches a slot only as the value returned by create-shell or by
move-out. -/
inductive Op where
  /-- Statement `S = smart_ptr_init();`. -/
  | create (S : Nat)
  /-- Statement `smart_ptr_make_unique(&S, n);`. -/
  | bind (S n : Nat)
  /-- Statement `smart_ptr_set(&S, src);`. -/
  | write (S : Nat) (src : List Byte)
  /-- Statement `smart_ptr_get(&S, dst);`. -/
  | read (S : Nat) (dst : List Byte)
  /-- Statement `smart_ptr_resize(&S, n);`. -/
  | resize (S n : Nat)
  /-- Statement `smart_ptr_free(&S);`. -/
  | release (S : Nat)
  /-- Statement `S1 = smart_ptr_throw(&S);`. -/
  | move_out (S S1 : Nat)
  /-- Statement `smart_ptr_catch(&S);`. -/
  | move_in (S : Nat)
deriving DecidableEq

/-- The memory after one step that returns normally; `none` when the call
aborts or has undefined behaviour, or when the target of the assignment is not
a slot. -/
def step (L : Libc) (m : Mem) : Op → Option Mem
  | Op.create S =>
    match smart_ptr_init L m with
    | Outcome.ok p m1 => if S < m1.slots.length then some (assign m1 S p) else none
    | _ => none
  | Op.bind S n =>
    match sp__smart_ptr_make_unique L m S n with
    | Outcome.ok _ m1 => some m1
    | _ => none
  | Op.write S src =>
    match sp__smart_ptr_set m S src with
    | Outcome.ok _ m1 => some m1
    | _ => none
  | Op.read S dst =>
    match sp__smart_ptr_get m S dst with
    | Outcome.ok _ m1 => some m1
    | _ => none
  | Op.resize S n =>
    match sp__smart_ptr_resize L m S n with
    | Outcome.ok _ m1 => some m1
    | _ => none
  | Op.release S =>
    match sp__smart_ptr_free m S with
    | Outcome.ok _ m1 => some m1
    | _ => none
  | Op.move_out S S1 =>
    match sp__smart_ptr_throw m S with
    | Outcome.ok p m1 => if S1 < m1.slots.length then some (assign m1 S1 p) else none
    | _ => none
  | Op.move_in S =>
    match sp__smart_ptr_catch m S with
    | Outcome.ok _ m1 => some m1
    | _ => none

/-- The memory after a sequence of steps that all return normally. -/
def run (L : Libc) : List Op → Mem → Option Mem
  | [], m => some m
  | op :: ops, m =>
    match step L m op with
    | some m1 => run L ops m1
    | none => none

/-- The memory of a program with `k` slots before its first call: every slot is
null and nothing is allocated. -/
def start (k : Nat) : Mem := ⟨List.replicate k none, []⟩

/-- Whether `a` designates an allocation that has not been released. -/
def is_live (heap : List Block) (a : Nat) : Bool :=
  match heap[a]? with
  | none => false
  | some Block.freed => false
  | some _ => true

/-- The buffer pointer of every live record is null or designates live storage
of exactly `size` bytes, and no two live records name the same storage. -/
def BufferOk (heap : List Block) : Prop :=
  (∀ (h : Nat) (r : sp__smart_ptr) (d : Nat),
    heap[h]? = some (Block.handle r) → r.data = some d →
    ∃ bs, heap[d]? = some (Block.bytes bs) ∧ bs.length = r.size) ∧
  (∀ (h h1 : Nat) (r r1 : sp__smart_ptr) (d : Nat),
    heap[h]? = some (Block.handle r) → heap[h1]? = some (Block.handle r1) →
    r.data = some d → r1.data = some d → h = h1)

/-! ## Auxiliary facts about the heap -/

theorem set_same {α : Type} (l : List α) (i : Nat) (x : α) (h : l[i]? = some x) :
    l.set i x = l := by
  induction l generalizing i with
  | nil => simp
  | cons a t ih =>
    cases i with
    | zero => simp at h; simp [h]
    | succ j => simp at h; simp [ih j h]

theorem load_eq {m : Mem} {p : Nat} {r : sp__smart_ptr}
    (h : m.heap[p]? = some (Block.handle r)) : load m p = some r := by
  simp [load, h]

theorem Bound.ne {m : Mem} {S h d : Nat} {c : List Byte} (hb : Bound m S h d c) : h ≠ d := by
  intro e
  obtain ⟨_, h2, h3⟩ := hb
  rw [e, h3] at h2
  simp at h2

theorem memcpy_in_bound {m : Mem} {S h d : Nat} {c : List Byte} (hb : Bound m S h d c)
    (src : List Byte) (hs : c.length ≤ src.length) :
    memcpy_in m (some d) src c.length
      = some { m with heap := m.heap.set d (Block.bytes (src.take c.length ++ c.drop c.length)) } := by
  obtain ⟨_, _, h3⟩ := hb
  unfold memcpy_in
  by_cases h0 : c.length = 0
  · have hc : c = [] := List.length_eq_zero.mp h0
    subst hc
    simp [set_same _ _ _ h3]
  · simp [h0, h3, hs]

theorem memcpy_out_bound {m : Mem} {S h d : Nat} {c : List Byte} (hb : Bound m S h d c)
    (dst : List Byte) (hs : c.length ≤ dst.length) :
    memcpy_out m dst (some d) c.length = some (c ++ dst.drop c.length) := by
  obtain ⟨_, _, h3⟩ := hb
  unfold memcpy_out
  by_cases h0 : c.length = 0
  · have hc : c = [] := List.length_eq_zero.mp h0
    subst hc
    simp
  · simp [h0, h3, hs]

/-- Write through the owning slot of a bound handle: the buffer receives the
first `size` bytes of the source and nothing else changes. -/
theorem set_bound {m : Mem} {S h d : Nat} {c : List Byte} (hb : Bound m S h d c)
    (src : List Byte) (hs : c.length ≤ src.length) :
    sp__smart_ptr_set m S src
      = Outcome.ok () { m with heap := m.heap.set d (Block.bytes (src.take c.length)) } := by
  have hm := memcpy_in_bound hb src hs
  obtain ⟨h1, h2, _⟩ := hb
  simp [sp__smart_ptr_set, h1, load_eq h2, hm]

/-- Read through the owning slot of a bound handle. -/
theorem get_bound {m : Mem} {S h d : Nat} {c : List Byte} (hb : Bound m S h d c)
    (dst : List Byte) (hs : c.length ≤ dst.length) :
    sp__smart_ptr_get m S dst = Outcome.ok (c ++ dst.drop c.length) m := by
  have hm := memcpy_out_bound hb dst hs
  obtain ⟨h1, h2, _⟩ := hb
  simp [sp__smart_ptr_get, h1, load_eq h2, hm]

/-- Replacing the buffer of a bound handle by as many bytes keeps it bound. -/
theorem Bound.write {m : Mem} {S h d : Nat} {c : List Byte} (hb : Bound m S h d c)
    (c1 : List Byte) (hl : c1.length = c.length) :
    Bound { m with heap := m.heap.set d (Block.bytes c1) } S h d c1 := by
  have hne := hb.ne
  obtain ⟨h1, h2, h3⟩ := hb
  have hd : d < m.heap.length := by
    rcases Nat.lt_or_ge d m.heap.length with h | h
    · exact h
    · rw [List.getElem?_eq_none h] at h3; simp at h3
  refine ⟨h1, ?_, ?_⟩
  · simp only [List.getElem?_set_ne (Ne.symm hne), hl]
    exact h2
  · simp [List.getElem?_set_self, hd]

theorem in_use_set (heap : List Block) (i : Nat) (b b1 : Block)
    (h : heap[i]? = some b) (hf : b1.footprint = b.footprint) :
    in_use (heap.set i b1) = in_use heap := by
  induction heap generalizing i with
  | nil => simp
  | cons a t ih =>
    cases i with
    | zero =>
      simp at h
      simp [in_use, h, hf]
    | succ j =>
      simp at h
      have := ih j h
      simp only [in_use] at this
      simp only [in_use, List.set_cons_succ, List.map_cons, List.sum_cons, this]

theorem lt_of_getElem? {α : Type} {l : List α} {i : Nat} {x : α} (h : l[i]? = some x) :
    i < l.length := by
  rcases Nat.lt_or_ge i l.length with h1 | h1
  · exact h1
  · rw [List.getElem?_eq_none h1] at h; simp at h

theorem length_fresh (L : Libc) (off n : Nat) : (fresh L off n).length = n := by
  simp [fresh]

/-- Resize on a bound handle, when `realloc` hands out a new block: the old
block is released and the record names the new one, which starts with the old
bytes. -/
theorem resize_bound_moved {L : Libc} {m : Mem} {S h d : Nat} {c : List Byte}
    (hb : Bound m S h d c) (b : Nat)
    (hz : ¬ (b = 0 ∧ L.realloc0_frees = true)) (hfit : L.fails (in_use m.heap) b = false) :
    sp__smart_ptr_resize L m S b = Outcome.ok ()
      ⟨m.slots, ((m.heap.set h (Block.handle ⟨some S, some d, b⟩)).set d Block.freed ++
          [Block.bytes (c.take b ++ fresh L c.length (b - c.length))]).set h
            (Block.handle ⟨some S, some m.heap.length, b⟩)⟩ := by
  have hne := hb.ne
  obtain ⟨h1, h2, h3⟩ := hb
  have hh := lt_of_getElem? h2
  have hu : in_use (m.heap.set h (Block.handle ⟨some S, some d, b⟩)) = in_use m.heap :=
    in_use_set _ _ _ _ h2 rfl
  simp only [sp__smart_ptr_resize, h1, load_eq h2, store, realloc]
  simp [List.getElem?_set_ne hne, h3, hz, hu, hfit, load, List.getElem?_append_left,
    List.getElem?_set_ne (Ne.symm hne), hh]

/-- After such a resize the handle is bound to the new block. -/
theorem Bound.moved {L : Libc} {m : Mem} {S h d : Nat} {c : List Byte}
    (hb : Bound m S h d c) (b : Nat) :
    Bound ⟨m.slots, ((m.heap.set h (Block.handle ⟨some S, some d, b⟩)).set d Block.freed ++
          [Block.bytes (c.take b ++ fresh L c.length (b - c.length))]).set h
            (Block.handle ⟨some S, some m.heap.length, b⟩)⟩
      S h m.heap.length (c.take b ++ fresh L c.length (b - c.length)) := by
  obtain ⟨h1, h2, h3⟩ := hb
  have hh := lt_of_getElem? h2
  have hlen : (c.take b ++ fresh L c.length (b - c.length)).length = b := by
    simp [length_fresh]; omega
  refine ⟨h1, ?_, ?_⟩
  · rw [hlen, List.set_append_left _ _ (by simpa using hh),
      List.getElem?_append_left (by simpa using hh)]
    simp [hh]
  · have hlt : h < m.heap.length := hh
    simp [List.getElem?_set_ne (Nat.ne_of_lt hlt), List.getElem?_append_right]

/-- Resize of a bound handle to zero bytes where `realloc(p, 0)` releases `p`:
the record is left with a null buffer and size zero. -/
theorem resize_bound_zero {L : Libc} {m : Mem} {S h d : Nat} {c : List Byte}
    (hb : Bound m S h d c) (hz : L.realloc0_frees = true) :
    sp__smart_ptr_resize L m S 0 = Outcome.ok ()
      ⟨m.slots, ((m.heap.set h (Block.handle ⟨some S, some d, 0⟩)).set d Block.freed).set h
          (Block.handle ⟨some S, none, 0⟩)⟩ := by
  have hne := hb.ne
  obtain ⟨h1, h2, h3⟩ := hb
  have hh := lt_of_getElem? h2
  simp only [sp__smart_ptr_resize, h1, load_eq h2, store, realloc]
  simp [List.getElem?_set_ne hne, h3, hz, load, List.getElem?_set_ne (Ne.symm hne), hh]

/-- Resize of a bound handle when `realloc` fails: the call still returns, the
old block stays allocated and the record is left with a null buffer. -/
theorem resize_bound_failed {L : Libc} {m : Mem} {S h d : Nat} {c : List Byte}
    (hb : Bound m S h d c) (b : Nat)
    (hz : ¬ (b = 0 ∧ L.realloc0_frees = true)) (hfit : L.fails (in_use m.heap) b = true) :
    sp__smart_ptr_resize L m S b = Outcome.ok ()
      ⟨m.slots, (m.heap.set h (Block.handle ⟨some S, some d, b⟩)).set h
          (Block.handle ⟨some S, none, b⟩)⟩ := by
  have hne := hb.ne
  obtain ⟨h1, h2, h3⟩ := hb
  have hh := lt_of_getElem? h2
  have hu : in_use (m.heap.set h (Block.handle ⟨some S, some d, b⟩)) = in_use m.heap :=
    in_use_set _ _ _ _ h2 rfl
  simp only [sp__smart_ptr_resize, h1, load_eq h2, store, realloc]
  simp [List.getElem?_set_ne hne, h3, hz, hu, hfit, load, hh]

/-- Resize through the owning slot of a bound handle always returns, with the
slot unchanged and a record that has the same owner and the new size. -/
theorem resize_bound_returns {L : Libc} {m : Mem} {S h d : Nat} {c : List Byte}
    (hb : Bound m S h d c) (b : Nat) :
    ∃ m1 data, sp__smart_ptr_resize L m S b = Outcome.ok () m1 ∧
      m1.slots = m.slots ∧ load m1 h = some ⟨some S, data, b⟩ := by
  have hh := lt_of_getElem? hb.2.1
  by_cases hz : b = 0 ∧ L.realloc0_frees = true
  · obtain ⟨hb0, hfr⟩ := hz
    subst hb0
    exact ⟨_, none, resize_bound_zero hb hfr, rfl, by simp [load, hh]⟩
  · cases hfit : L.fails (in_use m.heap) b with
    | true => exact ⟨_, none, resize_bound_failed hb b hz hfit, rfl, by simp [load, hh]⟩
    | false =>
      refine ⟨_, some m.heap.length, resize_bound_moved hb b hz hfit, rfl, ?_⟩
      have hb1 : Bound _ S h m.heap.length (c.take b ++ fresh L c.length (b - c.length)) :=
        Bound.moved hb b
      have hlen : (c.take b ++ fresh L c.length (b - c.length)).length = b := by
        simp [length_fresh]; omega
      have := load_eq hb1.2.1
      rw [hlen] at this
      exact this

/-- Release through the owning slot of a bound handle: buffer and record are
released and the slot is cleared. -/
theorem free_bound {m : Mem} {S h d : Nat} {c : List Byte} (hb : Bound m S h d c) :
    sp__smart_ptr_free m S = Outcome.ok ()
      ⟨m.slots.set S none, (m.heap.set d Block.freed).set h Block.freed⟩ := by
  have hne := hb.ne
  obtain ⟨h1, h2, h3⟩ := hb
  simp [sp__smart_ptr_free, h1, load_eq h2, free, h3, List.getElem?_set_ne (Ne.symm hne), h2,
    assign]

/-- Move-out through the owning slot of a bound handle. -/
theorem throw_bound {m : Mem} {S h d : Nat} {c : List Byte} (hb : Bound m S h d c) :
    sp__smart_ptr_throw m S = Outcome.ok (some h)
      ⟨m.slots, m.heap.set h (Block.handle ⟨none, some d, c.length⟩)⟩ := by
  obtain ⟨h1, h2, _⟩ := hb
  simp [sp__smart_ptr_throw, h1, load_eq h2, store]

/-- Move-in through a slot that holds a live handle whose owner is unset. -/
theorem catch_unowned {m : Mem} {P h : Nat} {r : sp__smart_ptr}
    (hs : m.slots[P]? = some (some h)) (hl : load m h = some r) (ho : r.owner = none) :
    sp__smart_ptr_catch m P = Outcome.ok () (store m h { r with owner := some P }) := by
  simp [sp__smart_ptr_catch, hs, hl, ho]

/-- Through a slot that is not the recorded owner of the live handle it holds,
write, read, resize, release and move-out abort and leave memory as it was. -/
theorem wrong_owner_aborts (L : Libc) {m : Mem} {P h : Nat} {r : sp__smart_ptr}
    (src dst : List Byte) (b : Nat)
    (hs : m.slots[P]? = some (some h)) (hl : load m h = some r) (ho : r.owner ≠ some P) :
    sp__smart_ptr_set m P src = Outcome.abort (Diag.invalidOwnership "set value") m ∧
    sp__smart_ptr_get m P dst = Outcome.abort (Diag.invalidOwnership "retrieve value") m ∧
    sp__smart_ptr_resize L m P b = Outcome.abort (Diag.invalidOwnership "retrieve value") m ∧
    sp__smart_ptr_free m P = Outcome.abort (Diag.invalidOwnership "free") m ∧
    sp__smart_ptr_throw m P = Outcome.abort (Diag.invalidOwnership "throw") m := by
  simp [sp__smart_ptr_set, sp__smart_ptr_get, sp__smart_ptr_resize, sp__smart_ptr_free,
    sp__smart_ptr_throw, hs, hl, ho]

/-- The move protocol on a bound handle: move-out through `S`, the returned
reference stored in `S1`, move-in through `S1`.  Both calls return, and the
memory afterwards is the first one with the reference in `S1` and `S1` as the
recorded owner. -/
theorem move_bound {m : Mem} {S h d : Nat} {c : List Byte} (hb : Bound m S h d c)
    (S1 : Nat) (hS1 : S1 < m.slots.length) :
    sp__smart_ptr_throw m S = Outcome.ok (some h)
        ⟨m.slots, m.heap.set h (Block.handle ⟨none, some d, c.length⟩)⟩ ∧
      sp__smart_ptr_catch
          (assign ⟨m.slots, m.heap.set h (Block.handle ⟨none, some d, c.length⟩)⟩ S1 (some h)) S1
        = Outcome.ok ()
          ⟨m.slots.set S1 (some h), m.heap.set h (Block.handle ⟨some S1, some d, c.length⟩)⟩ := by
  refine ⟨throw_bound hb, ?_⟩
  have hh := lt_of_getElem? hb.2.1
  simp [sp__smart_ptr_catch, assign, hS1, load, hh, store]

/-- After the move protocol the handle is bound to the destination slot. -/
theorem Bound.moved_to {m : Mem} {S h d : Nat} {c : List Byte} (hb : Bound m S h d c)
    (S1 : Nat) (hS1 : S1 < m.slots.length) :
    Bound ⟨m.slots.set S1 (some h), m.heap.set h (Block.handle ⟨some S1, some d, c.length⟩)⟩
      S1 h d c := by
  have hne := hb.ne
  have hh := lt_of_getElem? hb.2.1
  refine ⟨by simp [hS1], by simp [hh], ?_⟩
  simp only [List.getElem?_set_ne hne]
  exact hb.2.2

/-- Bind through a slot that holds a live handle whose record is not all zero
aborts and leaves memory as it was. -/
theorem make_unique_not_empty (L : Libc) {m : Mem} {P h : Nat} {r : sp__smart_ptr} (n : Nat)
    (hs : m.slots[P]? = some (some h)) (hl : load m h = some r) (hr : r ≠ zero) :
    sp__smart_ptr_make_unique L m P n = Outcome.abort Diag.notEmpty m := by
  simp [sp__smart_ptr_make_unique, hs, hl, hr]

/-- Bind through a slot that holds a live handle whose record is all zero
returns: the record gets the slot as owner, what `malloc` returned as buffer,
and the requested size. -/
theorem make_unique_zero (L : Libc) {m : Mem} {P h : Nat} (n : Nat)
    (hs : m.slots[P]? = some (some h)) (hl : load m h = some zero) :
    sp__smart_ptr_make_unique L m P n
      = Outcome.ok () (store (malloc L m n).2 h ⟨some P, (malloc L m n).1, n⟩) := by
  simp [sp__smart_ptr_make_unique, hs, hl]

/-- What create-shell returns when it returns: the number of a new block that
holds the all-zero record; slots and earlier blocks are as before. -/
theorem init_returns {L : Libc} {m m1 : Mem} {p : Option Nat}
    (hi : smart_ptr_init L m = Outcome.ok p m1) :
    p = some m.heap.length ∧ m1 = ⟨m.slots, m.heap ++ [Block.handle zero]⟩ := by
  unfold smart_ptr_init malloc at hi
  split at hi
  · simp at hi
  · rename_i ptr m2 heq
    split at heq
    · simp at heq
    · split at heq
      · simp at heq
      · simp only [Prod.mk.injEq, Option.some.injEq] at heq
        obtain ⟨h1, h2⟩ := heq
        subst h1 h2
        simp only [Outcome.ok.injEq] at hi
        obtain ⟨h3, h4⟩ := hi
        subst h3 h4
        simp [store]

/-- Create-shell returns when there is room for a record. -/
theorem init_fits {L : Libc} {m : Mem} (hf : L.fails (in_use m.heap) sizeof_sp = false) :
    smart_ptr_init L m
      = Outcome.ok (some m.heap.length) ⟨m.slots, m.heap ++ [Block.handle zero]⟩ := by
  have hf1 : L.fails (in_use m.heap) 24 = false := hf
  simp [smart_ptr_init, malloc, hf1, sizeof_sp, store]

/-- Released blocks at the end of the heap do not change which allocations are
live. -/
theorem is_live_append_freed (heap : List Block) (k a : Nat) :
    is_live (heap ++ List.replicate k Block.freed) a = is_live heap a := by
  unfold is_live
  rcases Nat.lt_or_ge a heap.length with h | h
  · rw [List.getElem?_append_left h]
  · rw [List.getElem?_append_right h, List.getElem?_eq_none h]
    rcases Nat.lt_or_ge (a - heap.length) k with h1 | h1
    · rw [List.getElem?_eq_getElem (by simpa using h1)]
      simp
    · rw [List.getElem?_eq_none (by simpa using h1)]

/-! ## The buffer invariant under the changes the operations make to the heap -/

theorem load_some {m : Mem} {p : Nat} {r : sp__smart_ptr} (h : load m p = some r) :
    m.heap[p]? = some (Block.handle r) := by
  unfold load at h
  split at h
  · rename_i r1 heq
    simp only [Option.some.injEq] at h
    rw [heq, h]
  · simp at h

theorem getElem?_set_cases {α : Type} {l : List α} {p j : Nat} {b x : α}
    (h : (l.set p b)[j]? = some x) : (j = p ∧ x = b) ∨ (j ≠ p ∧ l[j]? = some x) := by
  rw [List.getElem?_set] at h
  by_cases e : p = j
  · left
    rw [if_pos e] at h
    split at h
    · simp only [Option.some.injEq] at h
      exact ⟨e.symm, h.symm⟩
    · simp at h
  · right
    rw [if_neg e] at h
    exact ⟨fun e1 => e e1.symm, h⟩

theorem getElem?_append_one_cases {α : Type} {l : List α} {j : Nat} {b x : α}
    (h : (l ++ [b])[j]? = some x) : (j < l.length ∧ l[j]? = some x) ∨ (j = l.length ∧ x = b) := by
  rw [List.getElem?_append] at h
  split at h
  · rename_i hlt
    exact Or.inl ⟨hlt, h⟩
  · rename_i hge
    right
    have hj : j - l.length = 0 := by
      rcases Nat.eq_zero_or_pos (j - l.length) with h0 | h0
      · exact h0
      · rw [List.getElem?_eq_none (by simp only [List.length_singleton]; omega)] at h
        simp at h
    rw [hj] at h
    simp only [List.getElem?_cons_zero, Option.some.injEq] at h
    exact ⟨by omega, h.symm⟩

theorem BufferOk.nil : BufferOk [] := by
  constructor
  · intro h r d hh
    simp at hh
  · intro h h1 r r1 d hh
    simp at hh

/-- A new block that is not a record with a buffer keeps the invariant. -/
theorem BufferOk.append {heap : List Block} (ok : BufferOk heap) (b : Block)
    (hb : ∀ r, b = Block.handle r → r.data = none) : BufferOk (heap ++ [b]) := by
  obtain ⟨hA, hB⟩ := ok
  have old : ∀ (h : Nat) (r : sp__smart_ptr) (d : Nat),
      (heap ++ [b])[h]? = some (Block.handle r) → r.data = some d →
      heap[h]? = some (Block.handle r) := by
    intro h r d hh hd
    rcases getElem?_append_one_cases hh with ⟨_, h1⟩ | ⟨_, h1⟩
    · exact h1
    · rw [hb r h1.symm] at hd
      simp at hd
  constructor
  · intro h r d hh hd
    obtain ⟨bs, h1, h2⟩ := hA h r d (old h r d hh hd) hd
    exact ⟨bs, by rw [List.getElem?_append_left (lt_of_getElem? h1)]; exact h1, h2⟩
  · intro h h1 r r1 d hh hh1 hd hd1
    exact hB h h1 r r1 d (old h r d hh hd) (old h1 r1 d hh1 hd1) hd hd1

/-- A record may lose its buffer pointer, or change in its owner only. -/
theorem BufferOk.set_handle {heap : List Block} (ok : BufferOk heap) {p : Nat}
    {r r1 : sp__smart_ptr} (hp : heap[p]? = some (Block.handle r))
    (hd : r1.data = none ∨ (r1.data = r.data ∧ r1.size = r.size)) :
    BufferOk (heap.set p (Block.handle r1)) := by
  obtain ⟨hA, hB⟩ := ok
  have old : ∀ (h : Nat) (r0 : sp__smart_ptr) (d : Nat),
      (heap.set p (Block.handle r1))[h]? = some (Block.handle r0) → r0.data = some d →
      ∃ r2, heap[h]? = some (Block.handle r2) ∧ r2.data = some d ∧ r2.size = r0.size := by
    intro h r0 d hh hd0
    rcases getElem?_set_cases hh with ⟨e, h1⟩ | ⟨_, h1⟩
    · simp only [Block.handle.injEq] at h1
      subst h1 e
      rcases hd with h2 | ⟨h2, h3⟩
      · rw [h2] at hd0
        simp at hd0
      · exact ⟨r, hp, by rw [← h2]; exact hd0, h3.symm⟩
    · exact ⟨r0, h1, hd0, rfl⟩
  constructor
  · intro h r0 d hh hd0
    obtain ⟨r2, h1, h2, h3⟩ := old h r0 d hh hd0
    obtain ⟨bs, h4, h5⟩ := hA h r2 d h1 h2
    have hne : p ≠ d := by
      intro e
      rw [e, h4] at hp
      simp at hp
    exact ⟨bs, by rw [List.getElem?_set_ne hne]; exact h4, by rw [h5, h3]⟩
  · intro h h1 r0 r3 d hh hh1 hd0 hd1
    obtain ⟨r2, h2, h3, _⟩ := old h r0 d hh hd0
    obtain ⟨r4, h4, h5, _⟩ := old h1 r3 d hh1 hd1
    exact hB h h1 r2 r4 d h2 h4 h3 h5

/-- A record may take as buffer a block of `size` bytes that no other record
names. -/
theorem BufferOk.attach {heap : List Block} (ok : BufferOk heap) {p a : Nat}
    {r r1 : sp__smart_ptr} {c : List Byte} (hp : heap[p]? = some (Block.handle r))
    (ha : heap[a]? = some (Block.bytes c))
    (hun : ∀ (h : Nat) (r0 : sp__smart_ptr), heap[h]? = some (Block.handle r0) → h ≠ p →
      r0.data ≠ some a)
    (hd : r1.data = some a) (hs : r1.size = c.length) :
    BufferOk (heap.set p (Block.handle r1)) := by
  obtain ⟨hA, hB⟩ := ok
  have hpa : p ≠ a := by
    intro e
    rw [e, ha] at hp
    simp at hp
  constructor
  · intro h r0 d hh hd0
    rcases getElem?_set_cases hh with ⟨e, h1⟩ | ⟨_, h1⟩
    · simp only [Block.handle.injEq] at h1
      subst h1 e
      rw [hd] at hd0
      simp only [Option.some.injEq] at hd0
      subst hd0
      exact ⟨c, by rw [List.getElem?_set_ne hpa]; exact ha, hs.symm⟩
    · obtain ⟨bs0, h4, h5⟩ := hA h r0 d h1 hd0
      have hne : p ≠ d := by
        intro e
        rw [e, h4] at hp
        simp at hp
      exact ⟨bs0, by rw [List.getElem?_set_ne hne]; exact h4, h5⟩
  · intro h h1 r0 r3 d hh hh1 hd0 hd1
    rcases getElem?_set_cases hh with ⟨e, h2⟩ | ⟨e, h2⟩
    · rcases getElem?_set_cases hh1 with ⟨e1, _⟩ | ⟨e1, h3⟩
      · rw [e, e1]
      · simp only [Block.handle.injEq] at h2
        subst h2
        rw [hd] at hd0
        simp only [Option.some.injEq] at hd0
        subst hd0
        exact absurd hd1 (hun h1 r3 h3 e1)
    · rcases getElem?_set_cases hh1 with ⟨_, h3⟩ | ⟨_, h3⟩
      · simp only [Block.handle.injEq] at h3
        subst h3
        rw [hd] at hd1
        simp only [Option.some.injEq] at hd1
        subst hd1
        exact absurd hd0 (hun h r0 h2 e)
      · exact hB h h1 r0 r3 d h2 h3 hd0 hd1

/-- The bytes of a block may change while their number stays. -/
theorem BufferOk.set_bytes {heap : List Block} (ok : BufferOk heap) {a : Nat}
    {bs bs1 : List Byte} (ha : heap[a]? = some (Block.bytes bs)) (hl : bs1.length = bs.length) :
    BufferOk (heap.set a (Block.bytes bs1)) := by
  obtain ⟨hA, hB⟩ := ok
  have old : ∀ (h : Nat) (r0 : sp__smart_ptr),
      (heap.set a (Block.bytes bs1))[h]? = some (Block.handle r0) →
      heap[h]? = some (Block.handle r0) := by
    intro h r0 hh
    rcases getElem?_set_cases hh with ⟨_, h1⟩ | ⟨_, h1⟩
    · simp at h1
    · exact h1
  constructor
  · intro h r0 d hh hd0
    obtain ⟨bs0, h4, h5⟩ := hA h r0 d (old h r0 hh) hd0
    by_cases e : a = d
    · subst e
      rw [ha] at h4
      simp only [Option.some.injEq, Block.bytes.injEq] at h4
      subst h4
      exact ⟨bs1, by rw [List.getElem?_set_self (lt_of_getElem? ha)], by rw [hl, h5]⟩
    · exact ⟨bs0, by rw [List.getElem?_set_ne e]; exact h4, h5⟩
  · intro h h1 r0 r3 d hh hh1 hd0 hd1
    exact hB h h1 r0 r3 d (old h r0 hh) (old h1 r3 hh1) hd0 hd1

/-- A block that no other record names as buffer may be released. -/
theorem BufferOk.release {heap : List Block} (ok : BufferOk heap) {a : Nat}
    (hun : ∀ (h : Nat) (r0 : sp__smart_ptr), heap[h]? = some (Block.handle r0) → h ≠ a →
      r0.data ≠ some a) :
    BufferOk (heap.set a Block.freed) := by
  obtain ⟨hA, hB⟩ := ok
  have old : ∀ (h : Nat) (r0 : sp__smart_ptr),
      (heap.set a Block.freed)[h]? = some (Block.handle r0) →
      h ≠ a ∧ heap[h]? = some (Block.handle r0) := by
    intro h r0 hh
    rcases getElem?_set_cases hh with ⟨_, h1⟩ | ⟨e, h1⟩
    · simp at h1
    · exact ⟨e, h1⟩
  constructor
  · intro h r0 d hh hd0
    obtain ⟨e, h1⟩ := old h r0 hh
    obtain ⟨bs0, h4, h5⟩ := hA h r0 d h1 hd0
    have hne : a ≠ d := by
      intro e1
      subst e1
      exact hun h r0 h1 e hd0
    exact ⟨bs0, by rw [List.getElem?_set_ne hne]; exact h4, h5⟩
  · intro h h1 r0 r3 d hh hh1 hd0 hd1
    exact hB h h1 r0 r3 d (old h r0 hh).2 (old h1 r3 hh1).2 hd0 hd1

/-- No record names a block that is a record. -/
theorem BufferOk.not_handle {heap : List Block} (ok : BufferOk heap) {p : Nat}
    {r : sp__smart_ptr} (hp : heap[p]? = some (Block.handle r))
    (h : Nat) (r0 : sp__smart_ptr) (hh : heap[h]? = some (Block.handle r0)) :
    r0.data ≠ some p := by
  intro e
  obtain ⟨bs, h1, _⟩ := ok.1 h r0 p hh e
  rw [h1] at hp
  simp at hp

/-- No record names a block that is not allocated yet. -/
theorem BufferOk.not_beyond {heap : List Block} (ok : BufferOk heap)
    (h : Nat) (r0 : sp__smart_ptr) (hh : heap[h]? = some (Block.handle r0)) :
    r0.data ≠ some heap.length := by
  intro e
  obtain ⟨bs, h1, _⟩ := ok.1 h r0 heap.length hh e
  have := lt_of_getElem? h1
  omega

/-! ## The operations keep the buffer invariant -/

/-- Create-shell keeps the buffer invariant. -/
theorem init_keeps {L : Libc} {m m1 : Mem} {p : Option Nat} (ok : BufferOk m.heap)
    (h : smart_ptr_init L m = Outcome.ok p m1) : BufferOk m1.heap := by
  obtain ⟨_, h1⟩ := init_returns h
  subst h1
  exact ok.append _ (by intro r e; simp only [Block.handle.injEq] at e; subst e; rfl)

/-- Bind keeps the buffer invariant, whatever `malloc` returns. -/
theorem make_unique_keeps {L : Libc} {m m1 : Mem} {S n : Nat} {u : Unit} (ok : BufferOk m.heap)
    (h : sp__smart_ptr_make_unique L m S n = Outcome.ok u m1) : BufferOk m1.heap := by
  unfold sp__smart_ptr_make_unique at h
  split at h
  · simp at h
  · simp at h
  · rename_i ptr hs
    split at h
    · simp at h
    · rename_i r hl
      split at h
      · simp at h
      · rename_i hz
        simp only [ne_eq, not_not] at hz
        subst hz
        have hp := load_some hl
        simp only [Outcome.ok.injEq, true_and] at h
        subst h
        unfold malloc
        split
        · exact ok.set_handle hp (Or.inl rfl)
        · split
          · exact ok.set_handle hp (Or.inl rfl)
          · simp only [store]
            have hlt := lt_of_getElem? hp
            refine (ok.append (Block.bytes (fresh L 0 n)) (by intro r e; simp at e)).attach
              (r := zero) (a := m.heap.length) (c := fresh L 0 n) ?_ ?_ ?_ rfl
              (length_fresh L 0 n).symm
            · rw [List.getElem?_append_left hlt]; exact hp
            · simp
            · intro h r0 hh _
              rcases getElem?_append_one_cases hh with ⟨_, h1⟩ | ⟨_, h1⟩
              · exact ok.not_beyond h r0 h1
              · simp at h1
/-- Write keeps the buffer invariant. -/
theorem set_keeps {m m1 : Mem} {S : Nat} {src : List Byte} {u : Unit} (ok : BufferOk m.heap)
    (h : sp__smart_ptr_set m S src = Outcome.ok u m1) : BufferOk m1.heap := by
  unfold sp__smart_ptr_set at h
  split at h
  · simp at h
  · simp at h
  · split at h
    · simp at h
    · rename_i r hl
      split at h
      · simp at h
      · split at h
        · simp at h
        · rename_i m2 hm
          simp only [Outcome.ok.injEq, true_and] at h
          subst h
          unfold memcpy_in at hm
          split at hm
          · simp only [Option.some.injEq] at hm
            subst hm
            exact ok
          · split at hm
            · simp at hm
            · split at hm
              · rename_i a bs ha
                split at hm
                · rename_i hle
                  simp only [Option.some.injEq] at hm
                  subst hm
                  exact ok.set_bytes ha (by simp; omega)
                · simp at hm
              · simp at hm

/-- Read leaves memory as it was. -/
theorem get_keeps {m m1 : Mem} {S : Nat} {dst out : List Byte}
    (h : sp__smart_ptr_get m S dst = Outcome.ok out m1) : m1 = m := by
  unfold sp__smart_ptr_get at h
  split at h
  · simp at h
  · simp at h
  · split at h
    · simp at h
    · split at h
      · simp at h
      · split at h
        · simp at h
        · simp only [Outcome.ok.injEq] at h
          exact h.2.symm

/-- Move-out keeps the buffer invariant and the slots. -/
theorem throw_keeps {m m1 : Mem} {S : Nat} {p : Option Nat} (ok : BufferOk m.heap)
    (h : sp__smart_ptr_throw m S = Outcome.ok p m1) : BufferOk m1.heap ∧ m1.slots = m.slots := by
  unfold sp__smart_ptr_throw at h
  split at h
  · simp at h
  · simp at h
  · split at h
    · simp at h
    · rename_i r hl
      split at h
      · simp at h
      · split at h
        · simp at h
        · simp only [Outcome.ok.injEq] at h
          obtain ⟨_, h1⟩ := h
          subst h1
          exact ⟨ok.set_handle (load_some hl) (Or.inr ⟨rfl, rfl⟩), rfl⟩

/-- Move-in keeps the buffer invariant. -/
theorem catch_keeps {m m1 : Mem} {S : Nat} {u : Unit} (ok : BufferOk m.heap)
    (h : sp__smart_ptr_catch m S = Outcome.ok u m1) : BufferOk m1.heap := by
  unfold sp__smart_ptr_catch at h
  split at h
  · simp at h
  · simp at h
  · split at h
    · simp at h
    · rename_i r hl
      split at h
      · simp at h
      · simp only [Outcome.ok.injEq, true_and] at h
        subst h
        exact ok.set_handle (load_some hl) (Or.inr ⟨rfl, rfl⟩)
/-- Two writes to one index with a write elsewhere in between: the first
written value does not matter. -/
theorem set_set_through {α : Type} (l : List α) (p a : Nat) (x x0 y f : α) (hne : p ≠ a) :
    ((l.set p x).set a f).set p y = ((l.set p x0).set a f).set p y := by
  rw [List.set_comm x f l hne, List.set_set, List.set_comm x0 f l hne, List.set_set]

/-- Release keeps the buffer invariant. -/
theorem free_keeps {m m1 : Mem} {S : Nat} {u : Unit} (ok : BufferOk m.heap)
    (h : sp__smart_ptr_free m S = Outcome.ok u m1) : BufferOk m1.heap := by
  unfold sp__smart_ptr_free at h
  split at h
  · simp at h
  · simp at h
  · rename_i ptr hs
    split at h
    · simp at h
    · rename_i r hl
      have hp := load_some hl
      split at h
      · simp at h
      · split at h
        · simp at h
        · rename_i m2 hm2
          split at h
          · simp at h
          · rename_i m3 hm3
            simp only [Outcome.ok.injEq, true_and] at h
            subst h
            simp only [assign]
            have ok1 : BufferOk (m.heap.set ptr Block.freed) :=
              ok.release (fun h r0 hh _ => ok.not_handle hp h r0 hh)
            unfold free at hm2
            split at hm2
            · simp only [Option.some.injEq] at hm2
              subst hm2
              unfold free at hm3
              simp only [hp] at hm3
              simp only [Option.some.injEq] at hm3
              subst hm3
              exact ok1
            · rename_i a hd
              obtain ⟨bs, ha, _⟩ := ok.1 ptr r a hp hd
              simp only [ha, Option.some.injEq] at hm2
              subst hm2
              have hne : ptr ≠ a := by
                intro e
                rw [e, ha] at hp
                simp at hp
              unfold free at hm3
              simp only [List.getElem?_set_ne (Ne.symm hne), hp, Option.some.injEq] at hm3
              subst hm3
              simp only
              rw [List.set_comm Block.freed Block.freed m.heap (Ne.symm hne)]
              refine ok1.release ?_
              intro h r0 hh _
              rcases getElem?_set_cases hh with ⟨_, h1⟩ | ⟨e, h1⟩
              · simp at h1
              · intro hd0
                exact e (ok.2 h ptr r0 r a h1 hp hd0 hd)
/-- Resize keeps the buffer invariant, whatever `realloc` returns. -/
theorem resize_keeps {L : Libc} {m m1 : Mem} {S n : Nat} {u : Unit} (ok : BufferOk m.heap)
    (h : sp__smart_ptr_resize L m S n = Outcome.ok u m1) : BufferOk m1.heap := by
  unfold sp__smart_ptr_resize at h
  split at h
  · simp at h
  · simp at h
  · rename_i ptr hs
    split at h
    · simp at h
    · rename_i r hl
      have hp := load_some hl
      have hlt := lt_of_getElem? hp
      split at h
      · simp at h
      · split at h
        · simp at h
        · rename_i data m2 hr
          split at h
          · simp at h
          · rename_i r1 hl1
            have hp1 := load_some hl1
            simp only [Outcome.ok.injEq, true_and] at h
            subst h
            simp only [store]
            have okA : BufferOk (m.heap.set ptr (Block.handle ⟨r.owner, none, n⟩)) :=
              ok.set_handle hp (Or.inl rfl)
            unfold realloc at hr
            split at hr
            · rename_i hd
              simp only [Option.some.injEq] at hr
              have ok1 : BufferOk (m.heap.set ptr (Block.handle { r with size := n })) :=
                ok.set_handle hp (Or.inl hd)
              unfold malloc at hr
              split at hr
              · simp only [Prod.mk.injEq] at hr
                obtain ⟨h1, h2⟩ := hr
                subst h1 h2
                exact ok1.set_handle hp1 (Or.inl rfl)
              · split at hr
                · simp only [Prod.mk.injEq] at hr
                  obtain ⟨h1, h2⟩ := hr
                  subst h1 h2
                  exact ok1.set_handle hp1 (Or.inl rfl)
                · simp only [Prod.mk.injEq] at hr
                  obtain ⟨h1, h2⟩ := hr
                  subst h1 h2
                  simp only [store] at hp1 ⊢
                  have hr1 : r1 = { r with size := n } := by
                    rw [List.getElem?_append_left (by simpa using hlt),
                      List.getElem?_set_self hlt] at hp1
                    simp only [Option.some.injEq, Block.handle.injEq] at hp1
                    exact hp1.symm
                  refine (ok1.append (Block.bytes (fresh L 0 n)) (by intro r e; simp at e)).attach
                    (c := fresh L 0 n) hp1 ?_ ?_ rfl ?_
                  · simp
                  · intro h r0 hh _
                    rcases getElem?_append_one_cases hh with ⟨_, h1⟩ | ⟨_, h1⟩
                    · exact ok1.not_beyond h r0 h1
                    · simp at h1
                  · rw [hr1, length_fresh]
            · rename_i a hd
              simp only [store] at hr hp1
              split at hr
              · rename_i bs ha1
                have hne : ptr ≠ a := by
                  intro e
                  rw [e, List.getElem?_set_self (by rw [← e]; exact hlt)] at ha1
                  simp at ha1
                have ha : m.heap[a]? = some (Block.bytes bs) := by
                  rw [List.getElem?_set_ne hne] at ha1
                  exact ha1
                have okB : BufferOk ((m.heap.set ptr (Block.handle ⟨r.owner, none, n⟩)).set a
                    Block.freed) := by
                  refine okA.release ?_
                  intro h r0 hh _ hd0
                  rcases getElem?_set_cases hh with ⟨_, h1⟩ | ⟨e, h1⟩
                  · simp only [Block.handle.injEq] at h1
                    subst h1
                    simp at hd0
                  · exact e (ok.2 h ptr r0 r a h1 hp hd0 hd)
                have hpB : ((m.heap.set ptr (Block.handle ⟨r.owner, none, n⟩)).set a
                    Block.freed)[ptr]? = some (Block.handle ⟨r.owner, none, n⟩) := by
                  rw [List.getElem?_set_ne (Ne.symm hne), List.getElem?_set_self hlt]
                split at hr
                · simp only [Option.some.injEq, Prod.mk.injEq] at hr
                  obtain ⟨h1, h2⟩ := hr
                  subst h1 h2
                  simp only
                  rw [set_set_through m.heap ptr a _ (Block.handle ⟨r.owner, none, n⟩) _ _ hne]
                  exact okB.set_handle hpB (Or.inl rfl)
                · split at hr
                  · simp only [Option.some.injEq, Prod.mk.injEq] at hr
                    obtain ⟨h1, h2⟩ := hr
                    subst h1 h2
                    simp only [List.set_set]
                    exact ok.set_handle hp (Or.inl rfl)
                  · simp only [Option.some.injEq, Prod.mk.injEq] at hr
                    obtain ⟨h1, h2⟩ := hr
                    subst h1 h2
                    simp only [List.length_set] at hp1 ⊢
                    have hr1 : r1 = { r with size := n } := by
                      rw [List.getElem?_append_left (by simpa using hlt),
                        List.getElem?_set_ne (Ne.symm hne), List.getElem?_set_self hlt] at hp1
                      simp only [Option.some.injEq, Block.handle.injEq] at hp1
                      exact hp1.symm
                    rw [List.set_append_left _ _ (by simpa using hlt),
                      set_set_through m.heap ptr a _ (Block.handle ⟨r.owner, none, n⟩) _ _ hne,
                      ← List.set_append_left _ _ (by simpa using hlt)]
                    have okD := okB.append
                      (Block.bytes (List.take n bs ++ fresh L bs.length (n - bs.length)))
                      (by intro r e; simp at e)
                    refine okD.attach
                      (c := List.take n bs ++ fresh L bs.length (n - bs.length))
                      (r := ⟨r.owner, none, n⟩) ?_ ?_ ?_ rfl ?_
                    · rw [List.getElem?_append_left (by simpa using hlt)]
                      exact hpB
                    · rw [List.getElem?_append_right (by simp)]
                      simp
                    · intro h r0 hh _
                      rcases getElem?_append_one_cases hh with ⟨_, h1⟩ | ⟨_, h1⟩
                      · have := okB.not_beyond h r0 h1
                        simpa using this
                      · simp at h1
                    · rw [hr1]
                      simp [length_fresh]
                      omega
              · simp at hr
/-- Every step that returns keeps the buffer invariant. -/
theorem step_keeps {L : Libc} {m m1 : Mem} {op : Op} (ok : BufferOk m.heap)
    (h : step L m op = some m1) : BufferOk m1.heap := by
  cases op with
  | create S =>
    simp only [step] at h
    split at h
    · rename_i p m2 hi
      split at h
      · simp only [Option.some.injEq] at h
        subst h
        show BufferOk m2.heap
        exact init_keeps ok hi
      · simp at h
    · simp at h
  | bind S n =>
    simp only [step] at h
    split at h
    · rename_i u m2 hi
      simp only [Option.some.injEq] at h
      subst h
      exact make_unique_keeps ok hi
    · simp at h
  | write S src =>
    simp only [step] at h
    split at h
    · rename_i u m2 hi
      simp only [Option.some.injEq] at h
      subst h
      exact set_keeps ok hi
    · simp at h
  | read S dst =>
    simp only [step] at h
    split at h
    · rename_i u m2 hi
      simp only [Option.some.injEq] at h
      subst h
      rw [get_keeps hi]
      exact ok
    · simp at h
  | resize S n =>
    simp only [step] at h
    split at h
    · rename_i u m2 hi
      simp only [Option.some.injEq] at h
      subst h
      exact resize_keeps ok hi
    · simp at h
  | release S =>
    simp only [step] at h
    split at h
    · rename_i u m2 hi
      simp only [Option.some.injEq] at h
      subst h
      exact free_keeps ok hi
    · simp at h
  | move_out S S1 =>
    simp only [step] at h
    split at h
    · rename_i p m2 hi
      split at h
      · simp only [Option.some.injEq] at h
        subst h
        show BufferOk m2.heap
        exact (throw_keeps ok hi).1
      · simp at h
    · simp at h
  | move_in S =>
    simp only [step] at h
    split at h
    · rename_i u m2 hi
      simp only [Option.some.injEq] at h
      subst h
      exact catch_keeps ok hi
    · simp at h

/-- Every sequence of steps that return keeps the buffer invariant. -/
theorem run_keeps {L : Libc} (ops : List Op) {m m1 : Mem} (ok : BufferOk m.heap)
    (h : run L ops m = some m1) : BufferOk m1.heap := by
  induction ops generalizing m with
  | nil =>
    simp only [run, Option.some.injEq] at h
    subst h
    exact ok
  | cons op ops ih =>
    simp only [run] at h
    split at h
    · rename_i m2 hs
      exact ih (step_keeps ok hs) h
    · simp at h


/-! ## The claims -/

/-- C1. On a handle bound to slot `S` with size `n`, writing a source of `n`
bytes and reading at once into a destination of `n` bytes both succeed; the
destination then holds exactly the bytes written, and the handle is bound
with those bytes as contents. -/
theorem C1_set_then_get (m : Mem) (S h d : Nat) (c src dst : List Byte)
    (hb : Bound m S h d c) (hsrc : src.length = c.length) (hdst : dst.length = c.length) :
    ∃ m1, sp__smart_ptr_set m S src = Outcome.ok () m1 ∧ Bound m1 S h d src ∧
      sp__smart_ptr_get m1 S dst = Outcome.ok src m1 := by
  refine ⟨{ m with heap := m.heap.set d (Block.bytes src) }, ?_, hb.write src hsrc, ?_⟩
  · rw [set_bound hb src (by omega), ← hsrc, List.take_length]
  · have hg := get_bound (hb.write src hsrc) dst (by omega)
    rw [hg, ← hdst.trans hsrc.symm, List.drop_length, List.append_nil]

/-- C1 at the end-to-end scenario: on a handle bound with four bytes, the
bytes `[5,6,7,8]` are written and read back. -/
theorem C1_set_then_get_witness :
    Bound mem4 0 0 1 [1, 2, 3, 4] ∧
      ∃ m1, sp__smart_ptr_set mem4 0 [5, 6, 7, 8] = Outcome.ok () m1 ∧
        Bound m1 0 0 1 [5, 6, 7, 8] ∧
        sp__smart_ptr_get m1 0 [0, 0, 0, 0] = Outcome.ok [5, 6, 7, 8] m1 :=
  ⟨by decide,
    C1_set_then_get mem4 0 0 1 [1, 2, 3, 4] [5, 6, 7, 8] [0, 0, 0, 0]
      (by decide) (by decide) (by decide)⟩

/-- The memory `mem4` arises from two empty slots by create-shell, bind with
four bytes and a write, with 30 bytes of heap. -/
theorem mem4_reachable :
    smart_ptr_init (limited 30) ⟨[none, none], []⟩
        = Outcome.ok (some 0) ⟨[none, none], [Block.handle zero]⟩ ∧
      sp__smart_ptr_make_unique (limited 30) (assign ⟨[none, none], [Block.handle zero]⟩ 0 (some 0)) 0 4
        = Outcome.ok () ⟨[some 0, none],
            [Block.handle ⟨some 0, some 1, 4⟩, Block.bytes [0, 0, 0, 0]]⟩ ∧
      sp__smart_ptr_set ⟨[some 0, none],
            [Block.handle ⟨some 0, some 1, 4⟩, Block.bytes [0, 0, 0, 0]]⟩ 0 [1, 2, 3, 4]
        = Outcome.ok () mem4 := by
  decide

/-- C2, as stated, fails where `realloc` cannot satisfy the request: on the
bound handle of `mem4` (four bytes, 28 bytes in use, 30 available) a resize to
eight bytes returns normally with `size = 8` and a null buffer, and the
following read has undefined behaviour. -/
theorem C2_counterexample :
    Bound mem4 0 0 1 [1, 2, 3, 4] ∧
      sp__smart_ptr_resize (limited 30) mem4 0 8 = Outcome.ok ()
        ⟨[some 0, none], [Block.handle ⟨some 0, none, 8⟩, Block.bytes [1, 2, 3, 4]]⟩ ∧
      sp__smart_ptr_get
        ⟨[some 0, none], [Block.handle ⟨some 0, none, 8⟩, Block.bytes [1, 2, 3, 4]]⟩ 0
        [0, 0, 0, 0, 0, 0, 0, 0] = Outcome.fault := by
  decide

/-- C2, amended. On a handle bound to slot `S` with size `a` and contents `c`,
when the request for `b` bytes can be satisfied, resize to `b` returns
normally, the slot still holds the handle, the record has owner `S` and
`size = b`, and a following read into `b` bytes returns normally with `b`
bytes whose first `min a b` are the first `min a b` bytes of `c`.  The same
holds for `b = 0` where `realloc(p, 0)` releases the block. -/
theorem C2_resize_keeps_prefix (L : Libc) (m : Mem) (S h d : Nat) (c dst : List Byte) (b : Nat)
    (hb : Bound m S h d c)
    (hfit : L.fails (in_use m.heap) b = false ∨ (b = 0 ∧ L.realloc0_frees = true))
    (hdst : dst.length = b) :
    ∃ m1 r out, sp__smart_ptr_resize L m S b = Outcome.ok () m1 ∧
      m1.slots[S]? = some (some h) ∧ load m1 h = some r ∧
      r.owner = some S ∧ r.size = b ∧
      sp__smart_ptr_get m1 S dst = Outcome.ok out m1 ∧
      out.length = b ∧ out.take (min c.length b) = c.take (min c.length b) := by
  by_cases hz : b = 0 ∧ L.realloc0_frees = true
  · obtain ⟨hb0, hfr⟩ := hz
    subst hb0
    have hh := lt_of_getElem? hb.2.1
    refine ⟨_, ⟨some S, none, 0⟩, dst, resize_bound_zero hb hfr, hb.1, ?_, rfl, rfl, ?_, hdst, ?_⟩
    · simp [load, hh]
    · simp [sp__smart_ptr_get, hb.1, load, hh, memcpy_out]
    · simp [List.length_eq_zero.mp hdst]
  · have hfit : L.fails (in_use m.heap) b = false := hfit.resolve_right hz
    have hb1 : Bound _ S h m.heap.length (c.take b ++ fresh L c.length (b - c.length)) :=
      Bound.moved hb b
    have hlen : (c.take b ++ fresh L c.length (b - c.length)).length = b := by
      simp [length_fresh]; omega
    refine ⟨_, ⟨some S, some m.heap.length, b⟩, c.take b ++ fresh L c.length (b - c.length),
      resize_bound_moved hb b hz hfit, hb1.1, ?_, rfl, rfl, ?_, hlen, ?_⟩
    · have := load_eq hb1.2.1
      rw [hlen] at this
      exact this
    · have hg := get_bound hb1 dst (by omega)
      rw [hg, hlen, ← hdst, List.drop_length, List.append_nil]
    · rw [List.take_append_of_le_length (by simp), List.take_take]
      congr 1
      omega

/-- C2, amended, on the bound handle of `mem4`, grown to eight bytes with 64
bytes of heap. -/
theorem C2_resize_keeps_prefix_witness :
    Bound mem4 0 0 1 [1, 2, 3, 4] ∧
      ((limited 64).fails (in_use mem4.heap) 8 = false ∨
        ((8 : Nat) = 0 ∧ (limited 64).realloc0_frees = true)) ∧
      ∃ m1 r out, sp__smart_ptr_resize (limited 64) mem4 0 8 = Outcome.ok () m1 ∧
        m1.slots[0]? = some (some 0) ∧ load m1 0 = some r ∧
        r.owner = some 0 ∧ r.size = 8 ∧
        sp__smart_ptr_get m1 0 [0, 0, 0, 0, 0, 0, 0, 0] = Outcome.ok out m1 ∧
        out.length = 8 ∧
        out.take (min [(1 : Byte), 2, 3, 4].length 8)
          = [(1 : Byte), 2, 3, 4].take (min [(1 : Byte), 2, 3, 4].length 8) :=
  ⟨by decide, by decide,
    C2_resize_keeps_prefix (limited 64) mem4 0 0 1 [1, 2, 3, 4] [0, 0, 0, 0, 0, 0, 0, 0] 8
      (by decide) (by decide) (by decide)⟩

/-- C3. Through a slot `P` whose stored reference is a live handle with record
`r`, each of write, read, resize, release and move-out aborts with its
invalid-ownership diagnostic, memory untouched, if and only if `r.owner` is not
`P`; when `r.owner` is `P` the call goes on to its effect: the copy, the
reallocation, the two releases and the clearing of the slot, or the clearing of
the owner field. -/
theorem C3_ownership_check (L : Libc) (m : Mem) (P h : Nat) (r : sp__smart_ptr)
    (src dst : List Byte) (b : Nat)
    (hs : m.slots[P]? = some (some h)) (hl : load m h = some r) :
    (sp__smart_ptr_set m P src = Outcome.abort (Diag.invalidOwnership "set value") m
        ↔ r.owner ≠ some P) ∧
    (sp__smart_ptr_get m P dst = Outcome.abort (Diag.invalidOwnership "retrieve value") m
        ↔ r.owner ≠ some P) ∧
    (sp__smart_ptr_resize L m P b = Outcome.abort (Diag.invalidOwnership "retrieve value") m
        ↔ r.owner ≠ some P) ∧
    (sp__smart_ptr_free m P = Outcome.abort (Diag.invalidOwnership "free") m
        ↔ r.owner ≠ some P) ∧
    (sp__smart_ptr_throw m P = Outcome.abort (Diag.invalidOwnership "throw") m
        ↔ r.owner ≠ some P) ∧
    (r.owner = some P →
      sp__smart_ptr_set m P src =
        (match memcpy_in m r.data src r.size with
          | none => Outcome.fault
          | some m1 => Outcome.ok () m1) ∧
      sp__smart_ptr_get m P dst =
        (match memcpy_out m dst r.data r.size with
          | none => Outcome.fault
          | some out => Outcome.ok out m) ∧
      sp__smart_ptr_resize L m P b =
        (match realloc L (store m h { r with size := b }) r.data b with
          | none => Outcome.fault
          | some (data, m1) =>
            match load m1 h with
            | none => Outcome.fault
            | some r1 => Outcome.ok () (store m1 h { r1 with data := data })) ∧
      sp__smart_ptr_free m P =
        (match free m r.data with
          | none => Outcome.fault
          | some m1 =>
            match free m1 (some h) with
            | none => Outcome.fault
            | some m2 => Outcome.ok () (assign m2 P none)) ∧
      sp__smart_ptr_throw m P = Outcome.ok (some h) (store m h { r with owner := none })) := by
  have hst : (store m h { r with owner := none }).slots[P]? = some (some h) := hs
  refine ⟨?_, ?_, ?_, ?_, ?_, ?_⟩
  · by_cases ho : r.owner = some P
    · simp only [sp__smart_ptr_set, hs, hl, ho]
      cases memcpy_in m r.data src r.size <;> simp
    · simp [sp__smart_ptr_set, hs, hl, ho]
  · by_cases ho : r.owner = some P
    · simp only [sp__smart_ptr_get, hs, hl, ho]
      cases memcpy_out m dst r.data r.size <;> simp
    · simp [sp__smart_ptr_get, hs, hl, ho]
  · by_cases ho : r.owner = some P
    · simp only [sp__smart_ptr_resize, hs, hl, ho, ne_eq, not_true_eq_false, if_false]
      split
      · simp
      · split <;> simp
    · simp [sp__smart_ptr_resize, hs, hl, ho]
  · by_cases ho : r.owner = some P
    · simp only [sp__smart_ptr_free, hs, hl, ho, ne_eq, not_true_eq_false, if_false]
      split
      · simp
      · split <;> simp
    · simp [sp__smart_ptr_free, hs, hl, ho]
  · by_cases ho : r.owner = some P
    · simp [sp__smart_ptr_throw, hs, hl, ho, hst]
    · simp [sp__smart_ptr_throw, hs, hl, ho]
  · intro ho
    simp [sp__smart_ptr_set, sp__smart_ptr_get, sp__smart_ptr_resize, sp__smart_ptr_free,
      sp__smart_ptr_throw, hs, hl, ho, hst]

/-- C3 on `mem4_alias`, through slot 1, which holds a copy of the reference of
the handle owned by slot 0: the write aborts. -/
theorem C3_ownership_check_witness :
    mem4_alias.slots[1]? = some (some 0) ∧ load mem4_alias 0 = some ⟨some 0, some 1, 4⟩ ∧
      (sp__smart_ptr_set mem4_alias 1 [5, 6, 7, 8]
          = Outcome.abort (Diag.invalidOwnership "set value") mem4_alias
        ↔ (some 0 : Option Nat) ≠ some 1) :=
  ⟨by decide, by decide,
    (C3_ownership_check (limited 64) mem4_alias 1 0 ⟨some 0, some 1, 4⟩ [5, 6, 7, 8] [] 0
      (by decide) (by decide)).1⟩

/-- C4. For a handle bound to slot `S` and a slot `S1` other than `S`: move-out
through `S`, the returned reference stored in `S1`, and move-in through `S1`
all go through, and then each of write, read, resize, release and move-out
through `S`, which still holds the reference, aborts with its
invalid-ownership diagnostic and leaves memory as it was. -/
theorem C4_source_slot_rejected (L : Libc) (m : Mem) (S S1 h d : Nat) (c src dst : List Byte)
    (b : Nat) (hb : Bound m S h d c) (hne : S1 ≠ S) (hS1 : S1 < m.slots.length) :
    ∃ m1 m3, sp__smart_ptr_throw m S = Outcome.ok (some h) m1 ∧
      sp__smart_ptr_catch (assign m1 S1 (some h)) S1 = Outcome.ok () m3 ∧
      m3.slots[S]? = some (some h) ∧
      sp__smart_ptr_set m3 S src = Outcome.abort (Diag.invalidOwnership "set value") m3 ∧
      sp__smart_ptr_get m3 S dst = Outcome.abort (Diag.invalidOwnership "retrieve value") m3 ∧
      sp__smart_ptr_resize L m3 S b
        = Outcome.abort (Diag.invalidOwnership "retrieve value") m3 ∧
      sp__smart_ptr_free m3 S = Outcome.abort (Diag.invalidOwnership "free") m3 ∧
      sp__smart_ptr_throw m3 S = Outcome.abort (Diag.invalidOwnership "throw") m3 := by
  obtain ⟨ht, hc⟩ := move_bound hb S1 hS1
  have hb3 := hb.moved_to S1 hS1
  have hs : (⟨m.slots.set S1 (some h),
      m.heap.set h (Block.handle ⟨some S1, some d, c.length⟩)⟩ : Mem).slots[S]? = some (some h) := by
    simp only [List.getElem?_set_ne hne]
    exact hb.1
  have ho : (⟨some S1, some d, c.length⟩ : sp__smart_ptr).owner ≠ some S := by
    simpa using hne
  exact ⟨_, _, ht, hc, hs, wrong_owner_aborts L src dst b hs (load_eq hb3.2.1) ho⟩

/-- C4 on `mem4`: the handle of slot 0 is moved to slot 1. -/
theorem C4_source_slot_rejected_witness :
    Bound mem4 0 0 1 [1, 2, 3, 4] ∧ (1 : Nat) ≠ 0 ∧ 1 < mem4.slots.length ∧
      ∃ m1 m3, sp__smart_ptr_throw mem4 0 = Outcome.ok (some 0) m1 ∧
        sp__smart_ptr_catch (assign m1 1 (some 0)) 1 = Outcome.ok () m3 ∧
        m3.slots[0]? = some (some 0) ∧
        sp__smart_ptr_set m3 0 [5, 6, 7, 8]
          = Outcome.abort (Diag.invalidOwnership "set value") m3 ∧
        sp__smart_ptr_get m3 0 [0, 0, 0, 0]
          = Outcome.abort (Diag.invalidOwnership "retrieve value") m3 ∧
        sp__smart_ptr_resize (limited 64) m3 0 8
          = Outcome.abort (Diag.invalidOwnership "retrieve value") m3 ∧
        sp__smart_ptr_free m3 0 = Outcome.abort (Diag.invalidOwnership "free") m3 ∧
        sp__smart_ptr_throw m3 0 = Outcome.abort (Diag.invalidOwnership "throw") m3 :=
  ⟨by decide, by decide, by decide,
    C4_source_slot_rejected (limited 64) mem4 0 1 0 1 [1, 2, 3, 4] [5, 6, 7, 8] [0, 0, 0, 0] 8
      (by decide) (by decide) (by decide)⟩

/-- C5. For a handle bound to slot `S` with contents `c`: after move-out
through `S`, the returned reference stored in `S1`, and move-in through `S1`,
the memory is the first one with the reference in `S1` and `S1` as recorded
owner, so the handle is bound to `S1` with the same size and contents, as
`Bound` says of a handle bound there directly.  Through `S1` every operation
then returns as it does on any handle bound to `S1`: the write stores the
source, the read yields `c`, the resize returns with owner `S1` and the new
size, the release frees buffer and record and clears `S1`, and move-out
returns the reference and unsets the owner. -/
theorem C5_destination_slot_bound (L : Libc) (m : Mem) (S S1 h d : Nat) (c src dst : List Byte)
    (b : Nat) (hb : Bound m S h d c) (hS1 : S1 < m.slots.length)
    (hsrc : c.length ≤ src.length) (hdst : c.length ≤ dst.length) :
    ∃ m1 m3, sp__smart_ptr_throw m S = Outcome.ok (some h) m1 ∧
      sp__smart_ptr_catch (assign m1 S1 (some h)) S1 = Outcome.ok () m3 ∧
      m3 = ⟨m.slots.set S1 (some h), m.heap.set h (Block.handle ⟨some S1, some d, c.length⟩)⟩ ∧
      Bound m3 S1 h d c ∧
      sp__smart_ptr_set m3 S1 src
        = Outcome.ok () ⟨m3.slots, m3.heap.set d (Block.bytes (src.take c.length))⟩ ∧
      sp__smart_ptr_get m3 S1 dst = Outcome.ok (c ++ dst.drop c.length) m3 ∧
      (∃ m4 data, sp__smart_ptr_resize L m3 S1 b = Outcome.ok () m4 ∧
        m4.slots = m3.slots ∧ load m4 h = some ⟨some S1, data, b⟩) ∧
      sp__smart_ptr_free m3 S1 = Outcome.ok ()
        ⟨m3.slots.set S1 none, (m3.heap.set d Block.freed).set h Block.freed⟩ ∧
      sp__smart_ptr_throw m3 S1 = Outcome.ok (some h)
        ⟨m3.slots, m3.heap.set h (Block.handle ⟨none, some d, c.length⟩)⟩ := by
  obtain ⟨ht, hc⟩ := move_bound hb S1 hS1
  have hb3 := hb.moved_to S1 hS1
  exact ⟨_, _, ht, hc, rfl, hb3, set_bound hb3 src hsrc, get_bound hb3 dst hdst,
    resize_bound_returns hb3 b, free_bound hb3, throw_bound hb3⟩

/-- C5 on `mem4`: the handle of slot 0 is moved to slot 1. -/
theorem C5_destination_slot_bound_witness :
    Bound mem4 0 0 1 [1, 2, 3, 4] ∧ 1 < mem4.slots.length ∧
      ∃ m1 m3, sp__smart_ptr_throw mem4 0 = Outcome.ok (some 0) m1 ∧
        sp__smart_ptr_catch (assign m1 1 (some 0)) 1 = Outcome.ok () m3 ∧
        m3 = ⟨mem4.slots.set 1 (some 0),
          mem4.heap.set 0 (Block.handle ⟨some 1, some 1, [(1 : Byte), 2, 3, 4].length⟩)⟩ ∧
        Bound m3 1 0 1 [1, 2, 3, 4] ∧
        sp__smart_ptr_set m3 1 [5, 6, 7, 8] = Outcome.ok ()
          ⟨m3.slots, m3.heap.set 1
            (Block.bytes ([(5 : Byte), 6, 7, 8].take [(1 : Byte), 2, 3, 4].length))⟩ ∧
        sp__smart_ptr_get m3 1 [0, 0, 0, 0]
          = Outcome.ok ([1, 2, 3, 4] ++ [(0 : Byte), 0, 0, 0].drop [(1 : Byte), 2, 3, 4].length) m3 ∧
        (∃ m4 data, sp__smart_ptr_resize (limited 64) m3 1 8 = Outcome.ok () m4 ∧
          m4.slots = m3.slots ∧ load m4 0 = some ⟨some 1, data, 8⟩) ∧
        sp__smart_ptr_free m3 1 = Outcome.ok ()
          ⟨m3.slots.set 1 none, (m3.heap.set 1 Block.freed).set 0 Block.freed⟩ ∧
        sp__smart_ptr_throw m3 1 = Outcome.ok (some 0)
          ⟨m3.slots, m3.heap.set 0
            (Block.handle ⟨none, some 1, [(1 : Byte), 2, 3, 4].length⟩)⟩ :=
  ⟨by decide, by decide,
    C5_destination_slot_bound (limited 64) mem4 0 1 0 1 [1, 2, 3, 4] [5, 6, 7, 8] [0, 0, 0, 0] 8
      (by decide) (by decide) (by decide) (by decide)⟩

/-- C6, as stated, fails on a fresh shell: the handle returned by create-shell
and stored in slot 0 was never detached, yet move-in through slot 0 returns
and makes slot 0 its owner. -/
theorem C6_counterexample :
    smart_ptr_init (limited 64) mem0 = Outcome.ok (some 0) ⟨[none], [Block.handle zero]⟩ ∧
      sp__smart_ptr_catch (assign ⟨[none], [Block.handle zero]⟩ 0 (some 0)) 0
        = Outcome.ok () ⟨[some 0], [Block.handle ⟨some 0, none, 0⟩]⟩ := by
  decide

/-- C6, amended. Move-in through a slot `P` that holds a live handle returns
exactly when the owner field of the record is unset, as it is on a handle in
transit and on a fresh shell: the owner becomes `P`, and buffer pointer, size,
slots and all other blocks stay as they were.  When the owner field is set, as
on a bound handle, the call aborts with the invalid-ownership diagnostic and
leaves memory as it was. -/
theorem C6_catch_needs_unset_owner (m : Mem) (P h : Nat) (r : sp__smart_ptr)
    (hs : m.slots[P]? = some (some h)) (hl : load m h = some r) :
    (r.owner = none → sp__smart_ptr_catch m P
        = Outcome.ok () ⟨m.slots, m.heap.set h (Block.handle ⟨some P, r.data, r.size⟩)⟩) ∧
    (r.owner ≠ none → sp__smart_ptr_catch m P
        = Outcome.abort (Diag.invalidOwnership "catch") m) := by
  constructor
  · intro ho
    simp [sp__smart_ptr_catch, hs, hl, ho, store]
  · intro ho
    simp [sp__smart_ptr_catch, hs, hl, ho]

/-- C6, amended, on the bound handle of `mem4`: move-in through its slot aborts. -/
theorem C6_catch_needs_unset_owner_witness :
    mem4.slots[0]? = some (some 0) ∧ load mem4 0 = some ⟨some 0, some 1, 4⟩ ∧
      sp__smart_ptr_catch mem4 0 = Outcome.abort (Diag.invalidOwnership "catch") mem4 :=
  ⟨by decide, by decide,
    (C6_catch_needs_unset_owner mem4 0 0 ⟨some 0, some 1, 4⟩ (by decide) (by decide)).2
      (by decide)⟩

/-- C7, as stated, fails when the buffer is empty: a handle is created, bound
with four bytes, resized to zero bytes (where `realloc(p, 0)` returns `NULL`)
and detached by move-out.  Its record is then all zero, and bind through the
slot returns and allocates eight bytes. -/
theorem C7_counterexample :
    smart_ptr_init (limited 64) mem0 = Outcome.ok (some 0) ⟨[none], [Block.handle zero]⟩ ∧
      sp__smart_ptr_make_unique (limited 64) (assign ⟨[none], [Block.handle zero]⟩ 0 (some 0)) 0 4
        = Outcome.ok ()
          ⟨[some 0], [Block.handle ⟨some 0, some 1, 4⟩, Block.bytes [0, 0, 0, 0]]⟩ ∧
      sp__smart_ptr_resize (limited 64)
          ⟨[some 0], [Block.handle ⟨some 0, some 1, 4⟩, Block.bytes [0, 0, 0, 0]]⟩ 0 0
        = Outcome.ok () ⟨[some 0], [Block.handle ⟨some 0, none, 0⟩, Block.freed]⟩ ∧
      sp__smart_ptr_throw ⟨[some 0], [Block.handle ⟨some 0, none, 0⟩, Block.freed]⟩ 0
        = Outcome.ok (some 0) ⟨[some 0], [Block.handle ⟨none, none, 0⟩, Block.freed]⟩ ∧
      sp__smart_ptr_make_unique (limited 64)
          ⟨[some 0], [Block.handle ⟨none, none, 0⟩, Block.freed]⟩ 0 8
        = Outcome.ok () ⟨[some 0], [Block.handle ⟨some 0, some 2, 8⟩, Block.freed,
            Block.bytes [0, 0, 0, 0, 0, 0, 0, 0]]⟩ := by
  decide

/-- C7, amended. Through a slot `P` that holds a live handle in transit (owner
unset), bind with any size aborts with the not-empty diagnostic, memory left as
it was, if and only if the buffer pointer of the record is not null or its
size is not zero. -/
theorem C7_bind_in_transit (L : Libc) (m : Mem) (P h : Nat) (r : sp__smart_ptr) (n : Nat)
    (hs : m.slots[P]? = some (some h)) (hl : load m h = some r) (ho : r.owner = none) :
    sp__smart_ptr_make_unique L m P n = Outcome.abort Diag.notEmpty m
      ↔ (r.data ≠ none ∨ r.size ≠ 0) := by
  obtain ⟨o, dt, sz⟩ := r
  simp only at ho
  subst ho
  by_cases hz : dt ≠ none ∨ sz ≠ 0
  · have hr : (⟨none, dt, sz⟩ : sp__smart_ptr) ≠ zero := by
      intro e
      simp only [zero, sp__smart_ptr.mk.injEq, true_and] at e
      rcases hz with h1 | h1
      · exact h1 e.1
      · exact h1 e.2
    simp [make_unique_not_empty L n hs hl hr, hz]
  · have hr : (⟨none, dt, sz⟩ : sp__smart_ptr) = zero := by
      simp only [not_or, not_not] at hz
      simp [zero, hz.1, hz.2]
    rw [hr] at hl
    simp [make_unique_zero L n hs hl, hz]

/-- C7, amended, on `mem4_thrown`, whose handle in transit has a buffer of four
bytes: bind through slot 0 aborts. -/
theorem C7_bind_in_transit_witness :
    mem4_thrown.slots[0]? = some (some 0) ∧ load mem4_thrown 0 = some ⟨none, some 1, 4⟩ ∧
      (sp__smart_ptr_make_unique (limited 64) mem4_thrown 0 8
          = Outcome.abort Diag.notEmpty mem4_thrown
        ↔ ((some 1 : Option Nat) ≠ none ∨ (4 : Nat) ≠ 0)) :=
  ⟨by decide, by decide,
    C7_bind_in_transit (limited 64) mem4_thrown 0 0 ⟨none, some 1, 4⟩ 8
      (by decide) (by decide) rfl⟩

/-- C8. For a live handle whose record names some slot `S` as owner, bind with
any size through any slot `P` that holds its reference aborts with the
not-empty diagnostic; nothing is allocated and memory, so owner, buffer and
size, is left as it was. -/
theorem C8_bind_on_bound_rejected (L : Libc) (m : Mem) (P S h : Nat) (r : sp__smart_ptr)
    (n : Nat) (hs : m.slots[P]? = some (some h)) (hl : load m h = some r)
    (ho : r.owner = some S) :
    sp__smart_ptr_make_unique L m P n = Outcome.abort Diag.notEmpty m := by
  refine make_unique_not_empty L n hs hl ?_
  intro e
  rw [e] at ho
  simp [zero] at ho

/-- C8 on `mem4_alias`: bind is rejected through the owning slot 0 and through
slot 1, which holds a copy of the reference. -/
theorem C8_bind_on_bound_rejected_witness :
    mem4_alias.slots[1]? = some (some 0) ∧ load mem4_alias 0 = some ⟨some 0, some 1, 4⟩ ∧
      sp__smart_ptr_make_unique (limited 64) mem4_alias 1 8
        = Outcome.abort Diag.notEmpty mem4_alias :=
  ⟨by decide, by decide,
    C8_bind_on_bound_rejected (limited 64) mem4_alias 1 0 0 ⟨some 0, some 1, 4⟩ 8
      (by decide) (by decide) rfl⟩

/-- C9, as stated, fails where `malloc` cannot satisfy the request: with 30
bytes of heap, of which the fresh record takes 24, bind with eight bytes
returns normally and leaves `size = 8` with a null buffer. -/
theorem C9_counterexample :
    smart_ptr_init (limited 30) mem0 = Outcome.ok (some 0) ⟨[none], [Block.handle zero]⟩ ∧
      sp__smart_ptr_make_unique (limited 30) (assign ⟨[none], [Block.handle zero]⟩ 0 (some 0)) 0 8
        = Outcome.ok () ⟨[some 0], [Block.handle ⟨some 0, none, 8⟩]⟩ := by
  decide

/-- C9, amended. When create-shell returns the reference `p` and the caller
stores it in slot `S`, bind with `n` bytes through `S` returns normally, the
slot still holds `p`, and the record has owner `S`, size `n` and as buffer
what `malloc` returned; when `malloc` returned a block, as it does if the
request can be satisfied and is not a zero-size request answered by `NULL`,
that block is live storage of `n` bytes. -/
theorem C9_bind_postcondition (L : Libc) (m m1 : Mem) (p : Option Nat) (S n : Nat)
    (hS : S < m.slots.length) (hi : smart_ptr_init L m = Outcome.ok p m1) :
    ∃ h data m3, p = some h ∧
      sp__smart_ptr_make_unique L (assign m1 S p) S n = Outcome.ok () m3 ∧
      m3.slots[S]? = some (some h) ∧ load m3 h = some ⟨some S, data, n⟩ ∧
      data = (malloc L (assign m1 S p) n).1 ∧
      (L.fails (in_use m1.heap) n = false → ¬ (n = 0 ∧ L.malloc0_null = true) →
        ∃ d buf, data = some d ∧ m3.heap[d]? = some (Block.bytes buf) ∧ buf.length = n) := by
  obtain ⟨hp, hm1⟩ := init_returns hi
  subst hp hm1
  have hs : (assign ⟨m.slots, m.heap ++ [Block.handle zero]⟩ S (some m.heap.length)).slots[S]?
      = some (some m.heap.length) := by
    simp [assign, hS]
  have hl : load (assign ⟨m.slots, m.heap ++ [Block.handle zero]⟩ S (some m.heap.length))
      m.heap.length = some zero := by
    simp [load, assign]
  refine ⟨m.heap.length, _, _, rfl, make_unique_zero L n hs hl, ?_, ?_, rfl, ?_⟩
  · by_cases hz : n = 0 ∧ L.malloc0_null = true
    · simp [store, malloc, hz, assign, hS]
    · cases hf : L.fails (in_use (m.heap ++ [Block.handle zero])) n <;>
        simp [store, malloc, hz, assign, hS, hf]
  · by_cases hz : n = 0 ∧ L.malloc0_null = true
    · simp [store, malloc, hz, assign, load]
    · cases hf : L.fails (in_use (m.heap ++ [Block.handle zero])) n <;>
        simp [store, malloc, hz, assign, load, hf, List.getElem_append_right]
  · intro hf hz
    refine ⟨m.heap.length + 1, fresh L 0 n, ?_, ?_, length_fresh L 0 n⟩
    · simp [malloc, hz, assign, hf]
    · simp [store, malloc, hz, assign, hf, List.getElem_append_right]

/-- C9, amended, on one empty slot with 64 bytes of heap and four bytes asked. -/
theorem C9_bind_postcondition_witness :
    0 < mem0.slots.length ∧
      smart_ptr_init (limited 64) mem0 = Outcome.ok (some 0) ⟨[none], [Block.handle zero]⟩ ∧
      ∃ h data m3, (some 0 : Option Nat) = some h ∧
        sp__smart_ptr_make_unique (limited 64)
          (assign ⟨[none], [Block.handle zero]⟩ 0 (some 0)) 0 4 = Outcome.ok () m3 ∧
        m3.slots[0]? = some (some h) ∧ load m3 h = some ⟨some 0, data, 4⟩ ∧
        data = (malloc (limited 64) (assign ⟨[none], [Block.handle zero]⟩ 0 (some 0)) 4).1 ∧
        ((limited 64).fails (in_use (⟨[none], [Block.handle zero]⟩ : Mem).heap) 4 = false →
          ¬ ((4 : Nat) = 0 ∧ (limited 64).malloc0_null = true) →
          ∃ d buf, data = some d ∧ m3.heap[d]? = some (Block.bytes buf) ∧ buf.length = 4) :=
  ⟨by decide, by decide,
    C9_bind_postcondition (limited 64) mem0 ⟨[none], [Block.handle zero]⟩ (some 0) 0 4
      (by decide) (by decide)⟩

/-- C10. For a handle bound to slot `S`, move-out through `S` returns
normally; the value returned is the reference stored in `S`; afterwards the
owner field of the record is null, while the slots (so the reference in
`S`), the buffer pointer, the size, the buffer contents and every other block
are as before. -/
theorem C10_throw_effect_and_frame (m : Mem) (S h d : Nat) (c : List Byte)
    (hb : Bound m S h d c) :
    ∃ p m1, sp__smart_ptr_throw m S = Outcome.ok p m1 ∧
      m.slots[S]? = some p ∧ p = some h ∧ m1.slots = m.slots ∧
      load m1 h = some ⟨none, some d, c.length⟩ ∧
      m1.heap[d]? = some (Block.bytes c) ∧
      (∀ a, a ≠ h → m1.heap[a]? = m.heap[a]?) := by
  have hh := lt_of_getElem? hb.2.1
  refine ⟨some h, _, throw_bound hb, hb.1, rfl, rfl, ?_, ?_, ?_⟩
  · simp [load, hh]
  · simp only [List.getElem?_set_ne hb.ne]
    exact hb.2.2
  · intro a ha
    simp only [List.getElem?_set_ne (Ne.symm ha)]

/-- C10 on the bound handle of `mem4`. -/
theorem C10_throw_effect_and_frame_witness :
    Bound mem4 0 0 1 [1, 2, 3, 4] ∧
      ∃ p m1, sp__smart_ptr_throw mem4 0 = Outcome.ok p m1 ∧
        mem4.slots[0]? = some p ∧ p = some 0 ∧ m1.slots = mem4.slots ∧
        load m1 0 = some ⟨none, some 1, [(1 : Byte), 2, 3, 4].length⟩ ∧
        m1.heap[1]? = some (Block.bytes [1, 2, 3, 4]) ∧
        (∀ a, a ≠ 0 → m1.heap[a]? = mem4.heap[a]?) :=
  ⟨by decide, C10_throw_effect_and_frame mem4 0 0 1 [1, 2, 3, 4] (by decide)⟩

/-- C11, as stated, fails on bind: a handle is created and bound with four bytes
through slot 0, resized to zero bytes (where `realloc(p, 0)` returns `NULL`)
and moved out to slot 1.  It is in transit with an all-zero record, and bind
through slot 0, the slot it was moved out of, returns normally and allocates:
move-in is not the only operation accepted. -/
theorem C11_counterexample :
    run (limited 64) [Op.create 0, Op.bind 0 4, Op.resize 0 0, Op.move_out 0 1] (start 2)
      = some ⟨[some 0, some 0], [Block.handle ⟨none, none, 0⟩, Block.freed]⟩ ∧
    sp__smart_ptr_make_unique (limited 64)
        ⟨[some 0, some 0], [Block.handle ⟨none, none, 0⟩, Block.freed]⟩ 0 4
      = Outcome.ok () ⟨[some 0, some 0],
          [Block.handle ⟨some 0, some 2, 4⟩, Block.freed, Block.bytes [0, 0, 0, 0]]⟩ ∧
    sp__smart_ptr_make_unique (limited 64)
        ⟨[some 0, some 0], [Block.handle ⟨none, none, 0⟩, Block.freed]⟩ 1 4
      = Outcome.ok () ⟨[some 0, some 0],
          [Block.handle ⟨some 1, some 2, 4⟩, Block.freed, Block.bytes [0, 0, 0, 0]]⟩ := by
  decide

/-- C11, amended. Through any slot `P` that holds the reference of a live
handle whose owner field is unset, as move-out leaves it, each of write, read,
resize, release and move-out aborts with its invalid-ownership diagnostic and
leaves memory as it was; move-in through `P` is accepted and makes `P` the
owner.  Bind through `P` aborts with the not-empty diagnostic, memory left as
it was, if and only if the buffer pointer of the record is not null or its
size is not zero; when both are zero bind is accepted as well: it returns
normally and the record gets `P` as owner, what `malloc` returned as buffer
and the requested size. -/
theorem C11_in_transit_inert (L : Libc) (m : Mem) (P h : Nat) (r : sp__smart_ptr)
    (src dst : List Byte) (b n : Nat)
    (hs : m.slots[P]? = some (some h)) (hl : load m h = some r) (ho : r.owner = none) :
    sp__smart_ptr_set m P src = Outcome.abort (Diag.invalidOwnership "set value") m ∧
    sp__smart_ptr_get m P dst = Outcome.abort (Diag.invalidOwnership "retrieve value") m ∧
    sp__smart_ptr_resize L m P b = Outcome.abort (Diag.invalidOwnership "retrieve value") m ∧
    sp__smart_ptr_free m P = Outcome.abort (Diag.invalidOwnership "free") m ∧
    sp__smart_ptr_throw m P = Outcome.abort (Diag.invalidOwnership "throw") m ∧
    sp__smart_ptr_catch m P
      = Outcome.ok () ⟨m.slots, m.heap.set h (Block.handle ⟨some P, r.data, r.size⟩)⟩ ∧
    (sp__smart_ptr_make_unique L m P n = Outcome.abort Diag.notEmpty m
      ↔ (r.data ≠ none ∨ r.size ≠ 0)) ∧
    (r.data = none ∧ r.size = 0 →
      sp__smart_ptr_make_unique L m P n
        = Outcome.ok () (store (malloc L m n).2 h ⟨some P, (malloc L m n).1, n⟩)) := by
  have hne : r.owner ≠ some P := by simp [ho]
  obtain ⟨h1, h2, h3, h4, h5⟩ := wrong_owner_aborts L src dst b hs hl hne
  have hzero : r.data = none ∧ r.size = 0 → r = zero := by
    intro hz
    obtain ⟨o, dt, sz⟩ := r
    simp only at ho hz
    simp [zero, ho, hz.1, hz.2]
  refine ⟨h1, h2, h3, h4, h5, ?_, ?_, ?_⟩
  · rw [catch_unowned hs hl ho]
    rfl
  · by_cases hz : r.data ≠ none ∨ r.size ≠ 0
    · have hr : r ≠ zero := by
        intro e
        rw [e] at hz
        simp [zero] at hz
      simp [make_unique_not_empty L n hs hl hr, hz]
    · have hz1 : r.data = none ∧ r.size = 0 := by
        simp only [not_or, not_not] at hz
        exact hz
      have hr := hzero hz1
      rw [hr] at hl
      simp [make_unique_zero L n hs hl, hz]
  · intro hz
    have hr := hzero hz
    rw [hr] at hl
    exact make_unique_zero L n hs hl

/-- C11, amended, on `mem4_thrown`, through slot 0, the slot the handle was
moved out of; the handle in transit has a buffer of four bytes, so bind is
rejected too. -/
theorem C11_in_transit_inert_witness :
    mem4_thrown.slots[0]? = some (some 0) ∧ load mem4_thrown 0 = some ⟨none, some 1, 4⟩ ∧
      sp__smart_ptr_set mem4_thrown 0 [5, 6, 7, 8]
        = Outcome.abort (Diag.invalidOwnership "set value") mem4_thrown ∧
      sp__smart_ptr_get mem4_thrown 0 [0, 0, 0, 0]
        = Outcome.abort (Diag.invalidOwnership "retrieve value") mem4_thrown ∧
      sp__smart_ptr_resize (limited 64) mem4_thrown 0 8
        = Outcome.abort (Diag.invalidOwnership "retrieve value") mem4_thrown ∧
      sp__smart_ptr_free mem4_thrown 0
        = Outcome.abort (Diag.invalidOwnership "free") mem4_thrown ∧
      sp__smart_ptr_throw mem4_thrown 0
        = Outcome.abort (Diag.invalidOwnership "throw") mem4_thrown ∧
      sp__smart_ptr_catch mem4_thrown 0 = Outcome.ok ()
        ⟨mem4_thrown.slots, mem4_thrown.heap.set 0 (Block.handle ⟨some 0, some 1, 4⟩)⟩ ∧
      (sp__smart_ptr_make_unique (limited 64) mem4_thrown 0 8
          = Outcome.abort Diag.notEmpty mem4_thrown
        ↔ ((some 1 : Option Nat) ≠ none ∨ (4 : Nat) ≠ 0)) ∧
      ((some 1 : Option Nat) = none ∧ (4 : Nat) = 0 →
        sp__smart_ptr_make_unique (limited 64) mem4_thrown 0 8
          = Outcome.ok () (store (malloc (limited 64) mem4_thrown 8).2 0
              ⟨some 0, (malloc (limited 64) mem4_thrown 8).1, 8⟩)) :=
  ⟨by decide, by decide,
    C11_in_transit_inert (limited 64) mem4_thrown 0 0 ⟨none, some 1, 4⟩ [5, 6, 7, 8]
      [0, 0, 0, 0] 8 8 (by decide) (by decide) rfl⟩

/-- C12. For a live handle in transit (owner unset) whose reference is held by
slot `S1`: move-in through `S1` returns, and a second move-in on the handle,
through `S1` or through any slot `P` that holds its reference, aborts with the
invalid-ownership diagnostic and leaves memory as it was. -/
theorem C12_second_catch_rejected (m : Mem) (S1 P h : Nat) (r : sp__smart_ptr)
    (hs : m.slots[S1]? = some (some h)) (hp : m.slots[P]? = some (some h))
    (hl : load m h = some r) (ho : r.owner = none) :
    ∃ m1, sp__smart_ptr_catch m S1 = Outcome.ok () m1 ∧
      sp__smart_ptr_catch m1 S1 = Outcome.abort (Diag.invalidOwnership "catch") m1 ∧
      sp__smart_ptr_catch m1 P = Outcome.abort (Diag.invalidOwnership "catch") m1 := by
  have hh : h < m.heap.length := lt_of_getElem? (load_some hl)
  refine ⟨store m h { r with owner := some S1 }, catch_unowned hs hl ho, ?_, ?_⟩
  · simp [sp__smart_ptr_catch, store, hs, load, hh]
  · simp [sp__smart_ptr_catch, store, hp, load, hh]

/-- C12 on `mem4_copied`: move-in through slot 1, then again through slot 1 and
through slot 0. -/
theorem C12_second_catch_rejected_witness :
    mem4_copied.slots[1]? = some (some 0) ∧ mem4_copied.slots[0]? = some (some 0) ∧
      load mem4_copied 0 = some ⟨none, some 1, 4⟩ ∧
      ∃ m1, sp__smart_ptr_catch mem4_copied 1 = Outcome.ok () m1 ∧
        sp__smart_ptr_catch m1 1 = Outcome.abort (Diag.invalidOwnership "catch") m1 ∧
        sp__smart_ptr_catch m1 0 = Outcome.abort (Diag.invalidOwnership "catch") m1 :=
  ⟨by decide, by decide, by decide,
    C12_second_catch_rejected mem4_copied 1 0 0 ⟨none, some 1, 4⟩
      (by decide) (by decide) (by decide) rfl⟩

/-- C13. For a handle bound to slot `S`, release through `S` returns, the buffer
and the record are released and the slot is null; a second release through
`S` aborts with the already-freed diagnostic and releases nothing: memory is
left as it was. -/
theorem C13_release_twice (m : Mem) (S h d : Nat) (c : List Byte) (hb : Bound m S h d c) :
    ∃ m1, sp__smart_ptr_free m S = Outcome.ok () m1 ∧
      m1.slots[S]? = some none ∧
      m1.heap[h]? = some Block.freed ∧ m1.heap[d]? = some Block.freed ∧
      sp__smart_ptr_free m1 S = Outcome.abort Diag.alreadyFreed m1 := by
  have hne := hb.ne
  have hS := lt_of_getElem? hb.1
  have hh := lt_of_getElem? hb.2.1
  have hd := lt_of_getElem? hb.2.2
  refine ⟨_, free_bound hb, ?_, ?_, ?_, ?_⟩
  · simp [hS]
  · simp [hh]
  · simp [List.getElem?_set_ne hne, hd]
  · simp [sp__smart_ptr_free, hS]

/-- C13 on the bound handle of `mem4`. -/
theorem C13_release_twice_witness :
    Bound mem4 0 0 1 [1, 2, 3, 4] ∧
      ∃ m1, sp__smart_ptr_free mem4 0 = Outcome.ok () m1 ∧
        m1.slots[0]? = some none ∧
        m1.heap[0]? = some Block.freed ∧ m1.heap[1]? = some Block.freed ∧
        sp__smart_ptr_free m1 0 = Outcome.abort Diag.alreadyFreed m1 :=
  ⟨by decide, C13_release_twice mem4 0 0 1 [1, 2, 3, 4] (by decide)⟩

/-- C14. Through a slot `P` whose stored reference is null, each of bind, write,
read, resize, move-out and move-in aborts with its uninitialized-pointer
diagnostic and release aborts with the already-freed diagnostic, whatever the
heap, the library and the other arguments are; memory is left as it was. -/
theorem C14_null_check_first (L : Libc) (m : Mem) (P n b : Nat) (src dst : List Byte)
    (hs : m.slots[P]? = some none) :
    sp__smart_ptr_make_unique L m P n = Outcome.abort (Diag.uninitialized "make unique") m ∧
    sp__smart_ptr_set m P src = Outcome.abort (Diag.uninitialized "set value") m ∧
    sp__smart_ptr_get m P dst = Outcome.abort (Diag.uninitialized "retrieve value") m ∧
    sp__smart_ptr_resize L m P b = Outcome.abort (Diag.uninitialized "retrieve value") m ∧
    sp__smart_ptr_throw m P = Outcome.abort (Diag.uninitialized "throw") m ∧
    sp__smart_ptr_catch m P = Outcome.abort (Diag.uninitialized "catch") m ∧
    sp__smart_ptr_free m P = Outcome.abort Diag.alreadyFreed m := by
  simp [sp__smart_ptr_make_unique, sp__smart_ptr_set, sp__smart_ptr_get, sp__smart_ptr_resize,
    sp__smart_ptr_throw, sp__smart_ptr_catch, sp__smart_ptr_free, hs]

/-- C14 on `mem4_freed`, whose slot 0 was cleared by a release. -/
theorem C14_null_check_first_witness :
    mem4_freed.slots[0]? = some none ∧
      sp__smart_ptr_make_unique (limited 64) mem4_freed 0 4
        = Outcome.abort (Diag.uninitialized "make unique") mem4_freed ∧
      sp__smart_ptr_set mem4_freed 0 [1, 2, 3, 4]
        = Outcome.abort (Diag.uninitialized "set value") mem4_freed ∧
      sp__smart_ptr_get mem4_freed 0 [0, 0, 0, 0]
        = Outcome.abort (Diag.uninitialized "retrieve value") mem4_freed ∧
      sp__smart_ptr_resize (limited 64) mem4_freed 0 8
        = Outcome.abort (Diag.uninitialized "retrieve value") mem4_freed ∧
      sp__smart_ptr_throw mem4_freed 0 = Outcome.abort (Diag.uninitialized "throw") mem4_freed ∧
      sp__smart_ptr_catch mem4_freed 0 = Outcome.abort (Diag.uninitialized "catch") mem4_freed ∧
      sp__smart_ptr_free mem4_freed 0 = Outcome.abort Diag.alreadyFreed mem4_freed :=
  ⟨by decide,
    C14_null_check_first (limited 64) mem4_freed 0 4 8 [1, 2, 3, 4] [0, 0, 0, 0] (by decide)⟩

/-- C18. For a handle bound to slot `S`: a read through `S` returns and leaves
the whole memory as it was; a write through `S` returns and changes only the
bytes of the buffer block: the slots, the record (owner, buffer pointer, size)
and every other block are as before, and the buffer has its former length. -/
theorem C18_read_write_frame (m : Mem) (S h d : Nat) (c src dst : List Byte)
    (hb : Bound m S h d c) (hsrc : c.length ≤ src.length) (hdst : c.length ≤ dst.length) :
    (∃ out, sp__smart_ptr_get m S dst = Outcome.ok out m) ∧
    ∃ m1 c1, sp__smart_ptr_set m S src = Outcome.ok () m1 ∧
      m1.slots = m.slots ∧
      load m1 h = some ⟨some S, some d, c.length⟩ ∧ load m h = some ⟨some S, some d, c.length⟩ ∧
      (∀ a, a ≠ d → m1.heap[a]? = m.heap[a]?) ∧
      m1.heap[d]? = some (Block.bytes c1) ∧ c1.length = c.length := by
  have hl : (src.take c.length).length = c.length := by simp [hsrc]
  have hw := hb.write (src.take c.length) hl
  refine ⟨⟨_, get_bound hb dst hdst⟩, _, src.take c.length, set_bound hb src hsrc, rfl, ?_,
    load_eq hb.2.1, ?_, hw.2.2, hl⟩
  · have := load_eq hw.2.1
    rw [hl] at this
    exact this
  · intro a ha
    simp only [List.getElem?_set_ne (Ne.symm ha)]

/-- C18 on the bound handle of `mem4`. -/
theorem C18_read_write_frame_witness :
    Bound mem4 0 0 1 [1, 2, 3, 4] ∧
      (∃ out, sp__smart_ptr_get mem4 0 [0, 0, 0, 0] = Outcome.ok out mem4) ∧
      ∃ m1 c1, sp__smart_ptr_set mem4 0 [5, 6, 7, 8] = Outcome.ok () m1 ∧
        m1.slots = mem4.slots ∧
        load m1 0 = some ⟨some 0, some 1, [(1 : Byte), 2, 3, 4].length⟩ ∧
        load mem4 0 = some ⟨some 0, some 1, [(1 : Byte), 2, 3, 4].length⟩ ∧
        (∀ a, a ≠ 1 → m1.heap[a]? = mem4.heap[a]?) ∧
        m1.heap[1]? = some (Block.bytes c1) ∧ c1.length = [(1 : Byte), 2, 3, 4].length :=
  ⟨by decide,
    C18_read_write_frame mem4 0 0 1 [1, 2, 3, 4] [5, 6, 7, 8] [0, 0, 0, 0]
      (by decide) (by decide) (by decide)⟩

/-- C20. For a handle bound to slot `S`, move-out through `S` followed by
move-in through `S` both return, and the memory after the pair is the memory
before it: same owner, size, buffer, contents and slots. -/
theorem C20_throw_catch_round_trip (m : Mem) (S h d : Nat) (c : List Byte)
    (hb : Bound m S h d c) :
    ∃ m1, sp__smart_ptr_throw m S = Outcome.ok (some h) m1 ∧
      sp__smart_ptr_catch m1 S = Outcome.ok () m := by
  have hh := lt_of_getElem? hb.2.1
  refine ⟨_, throw_bound hb, ?_⟩
  have hs : (⟨m.slots, m.heap.set h (Block.handle ⟨none, some d, c.length⟩)⟩ : Mem).slots[S]?
      = some (some h) := hb.1
  have hl : load ⟨m.slots, m.heap.set h (Block.handle ⟨none, some d, c.length⟩)⟩ h
      = some ⟨none, some d, c.length⟩ := by
    simp [load, hh]
  rw [catch_unowned hs hl rfl]
  simp [store, set_same _ _ _ hb.2.1]

/-- C20 on the bound handle of `mem4`. -/
theorem C20_throw_catch_round_trip_witness :
    Bound mem4 0 0 1 [1, 2, 3, 4] ∧
      ∃ m1, sp__smart_ptr_throw mem4 0 = Outcome.ok (some 0) m1 ∧
        sp__smart_ptr_catch m1 0 = Outcome.ok () mem4 :=
  ⟨by decide, C20_throw_catch_round_trip mem4 0 0 1 [1, 2, 3, 4] (by decide)⟩

/-- C15, evaluated at the failing input: two slots, a handle created and bound
through slot 0, moved to slot 1 and released through slot 1.  Slot 0 still
holds the reference of the released record, and every operation through slot
0 dereferences it: none of them aborts with a diagnostic. -/
theorem C15_stale_reference_after_release :
    run (limited 64)
        [Op.create 0, Op.bind 0 4, Op.move_out 0 1, Op.move_in 1, Op.release 1] (start 2)
      = some ⟨[some 0, none], [Block.freed, Block.freed]⟩ ∧
    sp__smart_ptr_set ⟨[some 0, none], [Block.freed, Block.freed]⟩ 0 [1, 2, 3, 4]
      = Outcome.fault ∧
    sp__smart_ptr_get ⟨[some 0, none], [Block.freed, Block.freed]⟩ 0 [0, 0, 0, 0]
      = Outcome.fault ∧
    sp__smart_ptr_resize (limited 64) ⟨[some 0, none], [Block.freed, Block.freed]⟩ 0 8
      = Outcome.fault ∧
    sp__smart_ptr_free ⟨[some 0, none], [Block.freed, Block.freed]⟩ 0 = Outcome.fault ∧
    sp__smart_ptr_throw ⟨[some 0, none], [Block.freed, Block.freed]⟩ 0 = Outcome.fault ∧
    sp__smart_ptr_catch ⟨[some 0, none], [Block.freed, Block.freed]⟩ 0 = Outcome.fault ∧
    sp__smart_ptr_make_unique (limited 64) ⟨[some 0, none], [Block.freed, Block.freed]⟩ 0 4
      = Outcome.fault := by
  decide

/-- C16, as stated, fails on each of the three operations: with no room for a
record create-shell has undefined behaviour and prints nothing; with no room
for one more byte bind returns normally and leaves `size = 1` with a null
buffer; with no room for five bytes resize of the handle of `mem4` returns
normally and leaves `size = 5` with a null buffer, its four bytes lost to it. -/
theorem C16_counterexample :
    smart_ptr_init (limited 10) mem0 = Outcome.fault ∧
    run (limited 24) [Op.create 0] (start 1) = some ⟨[some 0], [Block.handle zero]⟩ ∧
    sp__smart_ptr_make_unique (limited 24) ⟨[some 0], [Block.handle zero]⟩ 0 1
      = Outcome.ok () ⟨[some 0], [Block.handle ⟨some 0, none, 1⟩]⟩ ∧
    run (limited 28) [Op.create 0, Op.bind 0 4, Op.write 0 [1, 2, 3, 4]] (start 2)
      = some mem4 ∧
    sp__smart_ptr_resize (limited 28) mem4 0 5 = Outcome.ok ()
      ⟨[some 0, none], [Block.handle ⟨some 0, none, 5⟩, Block.bytes [1, 2, 3, 4]]⟩ := by
  decide

/-- C16, amended. The result of an allocation is not checked.  When the
request of bind on a shell cannot be satisfied, the call returns normally and
the record has the slot as owner, the requested size and a null buffer.  When
the request of resize on a bound handle cannot be satisfied, the call returns
normally and the record has the new size and a null buffer, while the former
block stays allocated with its contents.  When the request of create-shell
cannot be satisfied, the call neither returns nor aborts with a diagnostic. -/
theorem C16_allocation_failure_unchecked (L : Libc) (m : Mem) :
    (∀ (S h n : Nat), m.slots[S]? = some (some h) → load m h = some zero →
      L.fails (in_use m.heap) n = true →
      sp__smart_ptr_make_unique L m S n
        = Outcome.ok () ⟨m.slots, m.heap.set h (Block.handle ⟨some S, none, n⟩)⟩) ∧
    (∀ (S h d b : Nat) (c : List Byte), Bound m S h d c →
      L.fails (in_use m.heap) b = true → ¬ (b = 0 ∧ L.realloc0_frees = true) →
      ∃ m1, sp__smart_ptr_resize L m S b = Outcome.ok () m1 ∧ m1.slots = m.slots ∧
        load m1 h = some ⟨some S, none, b⟩ ∧ m1.heap[d]? = some (Block.bytes c)) ∧
    (L.fails (in_use m.heap) sizeof_sp = true → smart_ptr_init L m = Outcome.fault) := by
  refine ⟨?_, ?_, ?_⟩
  · intro S h n hs hl hf
    rw [make_unique_zero L n hs hl]
    simp [malloc, hf, store]
  · intro S h d b c hb hf hz
    have hh := lt_of_getElem? hb.2.1
    refine ⟨_, resize_bound_failed hb b hz hf, rfl, ?_, ?_⟩
    · simp [load, hh]
    · simp only [List.getElem?_set_ne hb.ne]
      exact hb.2.2
  · intro hf
    have hf1 : L.fails (in_use m.heap) 24 = true := hf
    simp [smart_ptr_init, malloc, hf1, sizeof_sp]

/-- C16, amended, on the bound handle of `mem4` with 28 bytes of heap, all in
use, and five bytes asked. -/
theorem C16_allocation_failure_unchecked_witness :
    Bound mem4 0 0 1 [1, 2, 3, 4] ∧ (limited 28).fails (in_use mem4.heap) 5 = true ∧
      ¬ ((5 : Nat) = 0 ∧ (limited 28).realloc0_frees = true) ∧
      ∃ m1, sp__smart_ptr_resize (limited 28) mem4 0 5 = Outcome.ok () m1 ∧
        m1.slots = mem4.slots ∧ load m1 0 = some ⟨some 0, none, 5⟩ ∧
        m1.heap[1]? = some (Block.bytes [1, 2, 3, 4]) :=
  ⟨by decide, by decide, by decide,
    (C16_allocation_failure_unchecked (limited 28) mem4).2.1 0 0 1 5 [1, 2, 3, 4]
      (by decide) (by decide) (by decide)⟩

/-- C19, as stated, fails from an allocation state with no room for a record:
create-shell does not return. -/
theorem C19_counterexample :
    mem4.slots[1]? = some none ∧ smart_ptr_init (limited 30) mem4 = Outcome.fault := by
  decide

/-- C19, amended. From any memory in which the record can be allocated, and for
every size `n`: create-shell stored in slot `S`, bind with `n` through `S` and
release through `S` all return normally.  Afterwards `S` is null and the other
slots are as before; the heap is the heap before followed by the blocks the
sequence allocated, all of them released, so the live allocations are those
live before. -/
theorem C19_create_bind_release (L : Libc) (m : Mem) (S n : Nat)
    (hS : S < m.slots.length) (hrec : L.fails (in_use m.heap) sizeof_sp = false) :
    ∃ p m1 m2 m3 k, smart_ptr_init L m = Outcome.ok p m1 ∧
      sp__smart_ptr_make_unique L (assign m1 S p) S n = Outcome.ok () m2 ∧
      sp__smart_ptr_free m2 S = Outcome.ok () m3 ∧
      m3.slots = m.slots.set S none ∧ m3.slots[S]? = some none ∧
      m3.heap = m.heap ++ List.replicate k Block.freed ∧
      (∀ a, is_live m3.heap a = is_live m.heap a) := by
  have hs : (assign ⟨m.slots, m.heap ++ [Block.handle zero]⟩ S (some m.heap.length)).slots[S]?
      = some (some m.heap.length) := by
    simp [assign, hS]
  have hl : load (assign ⟨m.slots, m.heap ++ [Block.handle zero]⟩ S (some m.heap.length))
      m.heap.length = some zero := by
    simp [load, assign]
  have hmu := make_unique_zero L n hs hl
  by_cases hnull : n = 0 ∧ L.malloc0_null = true ∨
      L.fails (in_use (m.heap ++ [Block.handle zero])) n = true
  · have hmal : malloc L (assign ⟨m.slots, m.heap ++ [Block.handle zero]⟩ S (some m.heap.length)) n
        = (none, assign ⟨m.slots, m.heap ++ [Block.handle zero]⟩ S (some m.heap.length)) := by
      rcases hnull with h1 | h1
      · simp [malloc, h1]
      · simp [malloc, assign, h1]
    rw [hmal] at hmu
    refine ⟨_, _, _, ⟨m.slots.set S none, m.heap ++ [Block.freed]⟩, 1, init_fits hrec, hmu, ?_,
      rfl, by simp [hS], rfl, is_live_append_freed m.heap 1⟩
    simp [sp__smart_ptr_free, store, assign, hS, load, free]
  · simp only [not_or, Bool.not_eq_true] at hnull
    have hmal : malloc L (assign ⟨m.slots, m.heap ++ [Block.handle zero]⟩ S (some m.heap.length)) n
        = (some (m.heap.length + 1), ⟨m.slots.set S (some m.heap.length),
            m.heap ++ [Block.handle zero, Block.bytes (fresh L 0 n)]⟩) := by
      simp [malloc, assign, hnull.1, hnull.2]
    rw [hmal] at hmu
    refine ⟨_, _, _, ⟨m.slots.set S none, m.heap ++ [Block.freed, Block.freed]⟩, 2,
      init_fits hrec, hmu, ?_, rfl, by simp [hS], rfl, is_live_append_freed m.heap 2⟩
    simp [sp__smart_ptr_free, store, hS, load, free, assign, List.getElem_append_right]

/-- C19, amended, from `mem4` into its empty slot 1, with 64 bytes of heap and
eight bytes asked. -/
theorem C19_create_bind_release_witness :
    1 < mem4.slots.length ∧ (limited 64).fails (in_use mem4.heap) sizeof_sp = false ∧
      ∃ p m1 m2 m3 k, smart_ptr_init (limited 64) mem4 = Outcome.ok p m1 ∧
        sp__smart_ptr_make_unique (limited 64) (assign m1 1 p) 1 8 = Outcome.ok () m2 ∧
        sp__smart_ptr_free m2 1 = Outcome.ok () m3 ∧
        m3.slots = mem4.slots.set 1 none ∧ m3.slots[1]? = some none ∧
        m3.heap = mem4.heap ++ List.replicate k Block.freed ∧
        (∀ a, is_live m3.heap a = is_live mem4.heap a) :=
  ⟨by decide, by decide, C19_create_bind_release (limited 64) mem4 1 8 (by decide) (by decide)⟩

/-- C17, as stated, fails in both directions of use.  A handle created, bound
with four bytes and resized to zero bytes, where `realloc(p, 0)` returns
`NULL`, has its owner set and no buffer, and a write through its slot goes on
to the copy.  A shell that move-in accepted has its owner set and no buffer,
and a resize through its slot goes on to the reallocation. -/
theorem C17_counterexample :
    run (limited 64) [Op.create 0, Op.bind 0 4, Op.resize 0 0] (start 1)
      = some ⟨[some 0], [Block.handle ⟨some 0, none, 0⟩, Block.freed]⟩ ∧
    sp__smart_ptr_set ⟨[some 0], [Block.handle ⟨some 0, none, 0⟩, Block.freed]⟩ 0 []
      = Outcome.ok () ⟨[some 0], [Block.handle ⟨some 0, none, 0⟩, Block.freed]⟩ ∧
    run (limited 64) [Op.create 0, Op.move_in 0] (start 1)
      = some ⟨[some 0], [Block.handle ⟨some 0, none, 0⟩]⟩ ∧
    sp__smart_ptr_resize (limited 64) ⟨[some 0], [Block.handle ⟨some 0, none, 0⟩]⟩ 0 4
      = Outcome.ok ()
        ⟨[some 0], [Block.handle ⟨some 0, some 1, 4⟩, Block.bytes [0, 0, 0, 0]]⟩ := by
  decide

/-- C17, amended. In every memory reached from the start by steps that return
normally, the buffer pointer of every live record is null or designates live
storage of exactly `size` bytes, no two live records name the same storage,
and the all-zero record of a shell has a null buffer pointer.  Through the
owning slot of a handle whose buffer pointer is not null, a write from and a
read into at least `size` bytes return normally. -/
theorem C17_buffer_invariant (L : Libc) (k : Nat) (ops : List Op) (m : Mem)
    (hr : run L ops (start k) = some m) :
    BufferOk m.heap ∧ zero.data = none ∧
    (∀ (S h d : Nat) (r : sp__smart_ptr) (src dst : List Byte),
      m.slots[S]? = some (some h) → load m h = some r → r.owner = some S → r.data = some d →
      r.size ≤ src.length → r.size ≤ dst.length →
      (∃ m1, sp__smart_ptr_set m S src = Outcome.ok () m1) ∧
      (∃ out, sp__smart_ptr_get m S dst = Outcome.ok out m)) := by
  have ok : BufferOk m.heap := run_keeps ops BufferOk.nil hr
  refine ⟨ok, rfl, ?_⟩
  intro S h d r src dst hs hl ho hd hsrc hdst
  have hp := load_some hl
  obtain ⟨bs, h1, h2⟩ := ok.1 h r d hp hd
  have hb : Bound m S h d bs := by
    refine ⟨hs, ?_, h1⟩
    rw [hp, h2, ← ho, ← hd]
  rw [← h2] at hsrc hdst
  exact ⟨⟨_, set_bound hb src hsrc⟩, ⟨_, get_bound hb dst hdst⟩⟩

/-- C17, amended, on the steps that lead to `mem4`. -/
theorem C17_buffer_invariant_witness :
    run (limited 30) [Op.create 0, Op.bind 0 4, Op.write 0 [1, 2, 3, 4]] (start 2) = some mem4 ∧
      BufferOk mem4.heap :=
  ⟨by decide,
    (C17_buffer_invariant (limited 30) 2 [Op.create 0, Op.bind 0 4, Op.write 0 [1, 2, 3, 4]]
      mem4 (by decide)).1⟩

end SmartPtr
